import Mathlib

/-!
Verification development for the phoneme-level pronunciation scoring
pipeline (modules 发音评分模块 / 音素评分模块 / 音素特征提取).

The Python floats of the source are modelled exactly by `ℚ`; numpy / librosa
/ scipy / torch calls are external collaborators and enter the model as
explicit parameters (environment records), while every algorithmic step the
repository itself performs is translated faithfully.
-/

namespace PronunciationScoring

/- ## Basic utilities -/

/-- Boolean contiguous-sublist test on character lists, used to model the
Python substring operator `in` on strings. -/
def listIsInfixB (needle : List Char) : List Char → Bool
  | [] => needle.isEmpty
  | c :: rest => needle.isPrefixOf (c :: rest) || listIsInfixB needle rest

/-- Models Python `needle in hay` on strings. -/
def strContains (hay needle : String) : Bool :=
  listIsInfixB needle.toList hay.toList

/-- Models Python `re.sub(r"[^\w]", "", w)`: keep only word characters
(ASCII letters, digits and underscore; all inputs in this development are
ASCII or IPA symbols, and IPA letters are kept by `Char.isAlpha`). -/
def cleanWord (w : String) : String :=
  String.mk (w.toList.filter (fun c => c.isAlphanum || c = '_'))

/-- Models Python `s.lower()` (ASCII case mapping). -/
def lowerStr (s : String) : String :=
  String.mk (s.toList.map Char.toLower)

/-- Accumulator pass behind `splitWs`. -/
def splitWsAux : List Char → List Char → List String
  | acc, [] => [String.mk acc.reverse]
  | acc, c :: rest =>
    if c.isWhitespace then String.mk acc.reverse :: splitWsAux [] rest
    else splitWsAux (c :: acc) rest

/-- Models Python `s.split()`: split on whitespace, dropping empty pieces. -/
def splitWs (s : String) : List String :=
  (splitWsAux [] s.toList).filter (fun w => w ≠ "")

/-- Models Python `s.strip()`. -/
def trimStr (s : String) : String :=
  String.mk (((s.toList.dropWhile Char.isWhitespace).reverse.dropWhile
    Char.isWhitespace).reverse)

/- ## Data model (dataclasses of 音素评分模块.py) -/

/-- Result record for one scored phoneme (dataclass `PhonemeScore`). -/
structure PhonemeScore where
  phoneme : String
  start_time : ℚ
  end_time : ℚ
  score : ℚ
  confidence : ℚ
  quality : String
  issues : List String
deriving DecidableEq, Repr

/-- Result record for one analysed word (the per-word dict built by
`analyze_word_pronunciation`; the dict's `phoneme_scores` entries keep the
phoneme/score/quality/issues fields of the matched `PhonemeScore` values,
modelled here by keeping the matched records themselves). -/
structure WordScore where
  word : String
  score : ℚ
  quality : String
  phonemes : List String
  phoneme_scores : List PhonemeScore
  issues : List String
  suggestions : List String
  needs_improvement : Bool
deriving DecidableEq, Repr

/-- Terminal artifact of one scoring run (dataclass
`DetailedPronunciationResult`); the two diagnostic dicts are modelled as
numeric association lists (the constant-string entry `pitch_range:
"normal"` of `pitch_analysis` carries no data and is elided). -/
structure DetailedPronunciationResult where
  overall_score : ℚ
  phoneme_scores : List PhonemeScore
  word_scores : List WordScore
  pronunciation_issues : List String
  improvement_suggestions : List String
  duration_analysis : List (String × ℚ)
  pitch_analysis : List (String × ℚ)
deriving DecidableEq, Repr

/- ## PhonemeScorer: lexicons and tables -/

/-- Letter-to-phoneme fallback table `PhonemeScorer._load_phoneme_map`
(keys of length two are present in the source dict but are dead for the
per-character lookups that consume this table). -/
def phoneme_map : List (String × String) :=
  [("a", "æ"), ("e", "e"), ("i", "ɪ"), ("o", "ɒ"), ("u", "ʊ"),
   ("ah", "ʌ"), ("ay", "aɪ"), ("aw", "aʊ"), ("oy", "ɔɪ"),
   ("ee", "iː"), ("oo", "uː"), ("er", "ɜː"), ("ar", "ɑː"),
   ("p", "p"), ("b", "b"), ("t", "t"), ("d", "d"), ("k", "k"), ("g", "g"),
   ("f", "f"), ("v", "v"), ("th", "θ"), ("dh", "ð"), ("s", "s"), ("z", "z"),
   ("sh", "ʃ"), ("zh", "ʒ"), ("ch", "tʃ"), ("j", "dʒ"),
   ("m", "m"), ("n", "n"), ("ng", "ŋ"), ("l", "l"), ("r", "r"),
   ("w", "w"), ("y", "j"), ("h", "h")]

/-- Per-phoneme duration priors `PhonemeScorer._load_duration_thresholds`
(seconds, as (min, max)). -/
def duration_thresholds : List (String × ℚ × ℚ) :=
  [("æ", 0.08, 0.15), ("ɪ", 0.06, 0.12), ("ʊ", 0.06, 0.12),
   ("iː", 0.10, 0.20), ("uː", 0.10, 0.20), ("ɜː", 0.12, 0.25),
   ("p", 0.02, 0.08), ("b", 0.03, 0.10), ("t", 0.02, 0.08),
   ("d", 0.03, 0.10), ("k", 0.02, 0.08), ("g", 0.03, 0.10),
   ("f", 0.08, 0.15), ("v", 0.06, 0.12), ("s", 0.08, 0.18),
   ("z", 0.06, 0.15), ("ʃ", 0.08, 0.16), ("ʒ", 0.06, 0.14)]

/- ## Acoustic feature mapping consumed by the scorer -/

/-- The feature dict passed to `score_phoneme_quality` and
`check_phoneme_type_quality`; a key missing from the Python dict is `none`.
Only the keys those two functions read are modelled. -/
structure Features where
  mfcc_mean : Option (List ℚ) := none
  energy_mean : Option ℚ := none
  energy_max : Option ℚ := none
  spectral_centroid_mean : Option ℚ := none
  zcr_mean : Option ℚ := none
  f1 : Option ℚ := none
  voicing_rate : Option ℚ := none
deriving DecidableEq, Repr

/-- Models the comparison `np.std(xs) > c` (population standard deviation)
for a threshold `c ≥ 0`, stated without square roots by comparing population
variance against `c ^ 2` with denominators cleared. -/
def npStdGt (xs : List ℚ) (c : ℚ) : Bool :=
  decide (c ^ 2 * (xs.length : ℚ) ^ 2 <
    (xs.length : ℚ) * (xs.map (fun x => x ^ 2)).sum - xs.sum ^ 2)

/- ## PhonemeScorer.score_phoneme_quality (lines 206-268) -/

/-- Duration deduction tier of `score_phoneme_quality` (deduction, issues). -/
def durationRule (phoneme : String) (duration : ℚ) : ℚ × List String :=
  match duration_thresholds.lookup phoneme with
  | some (min_dur, max_dur) =>
    if duration < min_dur * 0.7 then
      (30, ["音素'" ++ phoneme ++ "'发音过短，需要更充分的发声"])
    else if duration < min_dur then
      (20, ["音素'" ++ phoneme ++ "'发音略短"])
    else if duration > max_dur * 1.5 then
      (25, ["音素'" ++ phoneme ++ "'发音过长，注意控制节奏"])
    else if duration > max_dur then
      (15, ["音素'" ++ phoneme ++ "'发音略长"])
    else (0, [])
  | none => (0, [])

/-- MFCC stability deduction tier of `score_phoneme_quality`. -/
def mfccRule (phoneme : String) (mfcc_mean : Option (List ℚ)) : ℚ × List String :=
  match mfcc_mean with
  | some xs =>
    if xs.length > 0 then
      if npStdGt xs 30 then
        (20, ["音素'" ++ phoneme ++ "'发音不稳定，可能存在紧张或不确定"])
      else if npStdGt xs 20 then
        (10, ["音素'" ++ phoneme ++ "'发音稍显不稳定"])
      else (0, [])
    else (0, [])
  | none => (0, [])

/-- Energy deduction tier of `score_phoneme_quality`. -/
def energyRule (phoneme : String) (energy_mean : Option ℚ) : ℚ × List String :=
  match energy_mean with
  | some e =>
    if e < 0.005 then
      (25, ["音素'" ++ phoneme ++ "'发音能量不足，需要更加清晰有力的发声"])
    else if e < 0.01 then
      (15, ["音素'" ++ phoneme ++ "'发音能量较低"])
    else (0, [])
  | none => (0, [])

/-- Spectral-centroid deduction tier of `score_phoneme_quality`. -/
def centroidRule (phoneme : String) (centroid : Option ℚ) : ℚ × List String :=
  match centroid with
  | some c =>
    if phoneme ∈ ["s", "ʃ", "f", "θ"] then
      if c < 2500 then
        (20, ["高频摩擦音'" ++ phoneme ++ "'高频成分不足，需要更明显的摩擦声"])
      else (0, [])
    else if phoneme ∈ ["æ", "ɑː", "ɒ"] then
      if c > 1500 then
        (15, ["低频元音'" ++ phoneme ++ "'音色偏高，需要更低的舌位"])
      else (0, [])
    else if phoneme ∈ ["iː", "ɪ"] then
      if c < 1000 ∨ c > 2200 then
        (15, ["高元音'" ++ phoneme ++ "'舌位不准确，需要调整口型"])
      else (0, [])
    else (0, [])
  | none => (0, [])

/-- Detailed phoneme classification `classify_phoneme_detailed`. -/
def classify_phoneme_detailed (phoneme : String) : String :=
  let vowels := ["æ", "ɪ", "ʊ", "iː", "uː", "ɜː", "ʌ", "aɪ", "aʊ", "ɔɪ", "e", "ɒ", "ɑː"]
  let fricatives := ["f", "v", "s", "z", "ʃ", "ʒ", "θ", "ð", "h"]
  let stops := ["p", "b", "t", "d", "k", "g"]
  let affricates := ["tʃ", "dʒ"]
  let nasals := ["m", "n", "ŋ"]
  let liquids := ["l", "r"]
  let glides := ["w", "j"]
  if phoneme ∈ vowels then
    if phoneme ∈ ["æ", "ɑː", "ɒ"] then "low_vowel"
    else if phoneme ∈ ["iː", "ɪ", "uː", "ʊ"] then "high_vowel"
    else if phoneme ∈ ["e", "ɜː", "ʌ"] then "mid_vowel"
    else "diphthong"
  else if phoneme ∈ fricatives then
    if phoneme ∈ ["s", "z", "ʃ", "ʒ"] then "sibilant_fricative"
    else "non_sibilant_fricative"
  else if phoneme ∈ stops then
    if phoneme ∈ ["p", "t", "k"] then "voiceless_stop" else "voiced_stop"
  else if phoneme ∈ affricates then "affricate"
  else if phoneme ∈ nasals then "nasal"
  else if phoneme ∈ liquids then "liquid"
  else if phoneme ∈ glides then "glide"
  else "unknown"

/-- Category-specific secondary checks `check_phoneme_type_quality`
(the `duration` parameter is accepted but unused, as in the source). -/
def check_phoneme_type_quality (phoneme phoneme_type : String) (features : Features)
    (_duration : ℚ) : List String :=
  if phoneme_type = "low_vowel" then
    match features.f1 with
    | some f1 =>
      if f1 > 0 then
        if f1 < 600 then ["低元音'" ++ phoneme ++ "'开口度不够，需要更大的张口"] else []
      else []
    | none => []
  else if phoneme_type = "high_vowel" then
    match features.f1 with
    | some f1 =>
      if f1 > 0 then
        if f1 > 450 then ["高元音'" ++ phoneme ++ "'舌位过低，需要提高舌位"] else []
      else []
    | none => []
  else if phoneme_type = "sibilant_fricative" then
    match features.zcr_mean with
    | some z =>
      if z < 0.15 then ["喙音'" ++ phoneme ++ "'摩擦声不够明显，需要更明显的气流摩擦"] else []
    | none => []
  else if phoneme_type = "voiceless_stop" then
    match features.energy_max, features.energy_mean with
    | some emax, some emean =>
      if emean > 0 then
        if emax / emean < 2.5 then
          ["清音爆破音'" ++ phoneme ++ "'爆破特征不明显，需要更明显的爆破壴"]
        else []
      else []
    | _, _ => []
  else if phoneme_type = "voiced_stop" then
    match features.voicing_rate with
    | some v =>
      if v < 0.6 then ["浊音爆破音'" ++ phoneme ++ "'浊音程度不足，需要更多声带振动"] else []
    | none => []
  else if phoneme_type = "nasal" then
    match features.f1 with
    | some f1 =>
      if f1 > 0 then
        if f1 > 500 then ["鼻音'" ++ phoneme ++ "'鼻腔共鸣不足，注意软腊下降"] else []
      else []
    | none => []
  else []

/-- Per-phoneme quality scoring `score_phoneme_quality`: a base score of 80
with independent deduction rules, clamped to [0, 100] at the end. -/
def score_phoneme_quality (phoneme : String) (features : Features) (duration : ℚ) :
    ℚ × List String :=
  let r1 := durationRule phoneme duration
  let r2 := mfccRule phoneme features.mfcc_mean
  let r3 := energyRule phoneme features.energy_mean
  let r4 := centroidRule phoneme features.spectral_centroid_mean
  let phoneme_type := classify_phoneme_detailed phoneme
  let type_issues := check_phoneme_type_quality phoneme phoneme_type features duration
  let score : ℚ := 80 - r1.1 - r2.1 - r3.1 - r4.1 - (type_issues.length : ℚ) * 8
  let issues := r1.2 ++ r2.2 ++ r3.2 ++ r4.2 ++ type_issues
  (max 0 (min 100 score), issues)

/-- Quality label breakpoints `get_quality_level`. -/
def get_quality_level (score : ℚ) : String :=
  if score ≥ 90 then "excellent"
  else if score ≥ 75 then "good"
  else if score ≥ 60 then "fair"
  else "poor"

/-- Confidence derived from the issue count (line 408 of 音素评分模块.py):
`min(1.0, max(0.3, 1.0 - len(issues) * 0.1))`. -/
def phonemeConfidence (issueCount : ℕ) : ℚ :=
  min 1 (max 0.3 (1 - (issueCount : ℚ) * 0.1))

/-- Construction of one `PhonemeScore` as performed in the scoring loop of
`analyze_pronunciation_detailed` (lines 399-418): the segment's features are
the extractor's output on the segment audio, passed in here. -/
def mkPhonemeScore (phoneme : String) (startTime endTime : ℚ) (features : Features) :
    PhonemeScore :=
  let duration := endTime - startTime
  let si := score_phoneme_quality phoneme features duration
  { phoneme := phoneme
    start_time := startTime
    end_time := endTime
    score := si.1
    confidence := phonemeConfidence si.2.length
    quality := get_quality_level si.1
    issues := si.2 }

/- ## Nonnegativity of the deduction tiers -/

theorem durationRule_nonneg (phoneme : String) (duration : ℚ) :
    0 ≤ (durationRule phoneme duration).1 := by
  unfold durationRule
  rcases duration_thresholds.lookup phoneme with _ | ⟨mn, mx⟩ <;> simp <;>
    split_ifs <;> norm_num

theorem mfccRule_nonneg (phoneme : String) (m : Option (List ℚ)) :
    0 ≤ (mfccRule phoneme m).1 := by
  unfold mfccRule
  rcases m with _ | xs <;> simp <;> split_ifs <;> norm_num

theorem energyRule_nonneg (phoneme : String) (e : Option ℚ) :
    0 ≤ (energyRule phoneme e).1 := by
  unfold energyRule
  rcases e with _ | e <;> simp <;> split_ifs <;> norm_num

theorem centroidRule_nonneg (phoneme : String) (c : Option ℚ) :
    0 ≤ (centroidRule phoneme c).1 := by
  unfold centroidRule
  rcases c with _ | c <;> simp <;> split_ifs <;> norm_num

/-- Before the final clamp the quality score is at most the base score 80:
every rule only deducts. -/
theorem score_phoneme_quality_le_80 (phoneme : String) (features : Features)
    (duration : ℚ) : (score_phoneme_quality phoneme features duration).1 ≤ 80 := by
  unfold score_phoneme_quality
  have h1 := durationRule_nonneg phoneme duration
  have h2 := mfccRule_nonneg phoneme features.mfcc_mean
  have h3 := energyRule_nonneg phoneme features.energy_mean
  have h4 := centroidRule_nonneg phoneme features.spectral_centroid_mean
  have h5 : (0 : ℚ) ≤ ((check_phoneme_type_quality phoneme
      (classify_phoneme_detailed phoneme) features duration).length : ℚ) * 8 := by
    positivity
  refine max_le (by norm_num) ?_
  refine le_trans (min_le_right _ _) ?_
  linarith

theorem score_phoneme_quality_bounds (phoneme : String) (features : Features)
    (duration : ℚ) : 0 ≤ (score_phoneme_quality phoneme features duration).1 ∧
      (score_phoneme_quality phoneme features duration).1 ≤ 100 := by
  unfold score_phoneme_quality
  constructor
  · exact le_max_left 0 _
  · exact max_le (by norm_num) (min_le_left _ _)

theorem phonemeConfidence_bounds (k : ℕ) :
    0.3 ≤ phonemeConfidence k ∧ phonemeConfidence k ≤ 1 := by
  unfold phonemeConfidence
  constructor
  · exact le_min (by norm_num) (le_max_left _ _)
  · exact min_le_left _ _

/-- C6: for every phoneme symbol, feature mapping and duration the quality
score after all deductions lies in [0, 100], and every constructed
`PhonemeScore` has confidence `min(1, max(0.3, 1 - 0.1 * issue_count))`,
hence confidence in [0.3, 1]. -/
theorem C6_phoneme_score_and_confidence_in_range (phoneme : String)
    (features : Features) (startTime endTime : ℚ) :
    (0 ≤ (mkPhonemeScore phoneme startTime endTime features).score ∧
      (mkPhonemeScore phoneme startTime endTime features).score ≤ 100) ∧
    (mkPhonemeScore phoneme startTime endTime features).confidence =
      min 1 (max 0.3 (1 -
        ((mkPhonemeScore phoneme startTime endTime features).issues.length : ℚ) * 0.1)) ∧
    (0.3 ≤ (mkPhonemeScore phoneme startTime endTime features).confidence ∧
      (mkPhonemeScore phoneme startTime endTime features).confidence ≤ 1) := by
  refine ⟨score_phoneme_quality_bounds phoneme features (endTime - startTime), rfl,
    phonemeConfidence_bounds _⟩

/-- C8: the phoneme quality score never exceeds the base score 80 (every
rule only deducts), so a pipeline-constructed `PhonemeScore` is never
labelled excellent (which would require a score of at least 90). -/
theorem C8_score_at_most_base_never_excellent (phoneme : String)
    (features : Features) (duration startTime endTime : ℚ) :
    (score_phoneme_quality phoneme features duration).1 ≤ 80 ∧
    (mkPhonemeScore phoneme startTime endTime features).quality ≠ "excellent" := by
  refine ⟨score_phoneme_quality_le_80 phoneme features duration, ?_⟩
  show get_quality_level (score_phoneme_quality phoneme features (endTime - startTime)).1 ≠ _
  have h := score_phoneme_quality_le_80 phoneme features (endTime - startTime)
  unfold get_quality_level
  rw [if_neg (by intro hge; linarith)]
  split_ifs <;> decide

/- ## PhonemeAligner (音素特征提取.py, lines 195-318) -/

namespace PhonemeAligner

/-- Global minimal per-phoneme duration (seconds). -/
def min_phoneme_duration : ℚ := 0.03

/-- Global maximal per-phoneme duration (seconds). -/
def max_phoneme_duration : ℚ := 0.4

/-- Typical-duration weight table of `duration_weighted_alignment`. -/
def duration_weights : List (String × ℚ) :=
  [("æ", 1.2), ("ɪ", 1.0), ("ʊ", 1.0), ("iː", 1.5), ("uː", 1.5), ("ɜː", 1.8),
   ("ʌ", 1.1), ("aɪ", 1.3), ("aʊ", 1.3), ("ɔɪ", 1.3), ("e", 1.1), ("ɒ", 1.1),
   ("p", 0.6), ("b", 0.7), ("t", 0.6), ("d", 0.7), ("k", 0.6), ("g", 0.7),
   ("f", 0.9), ("v", 0.8), ("θ", 0.8), ("ð", 0.7), ("s", 0.9), ("z", 0.8),
   ("ʃ", 0.9), ("ʒ", 0.8), ("tʃ", 0.8), ("dʒ", 0.8),
   ("m", 0.8), ("n", 0.8), ("ŋ", 0.8), ("l", 0.8), ("r", 0.8),
   ("w", 0.7), ("j", 0.6), ("h", 0.5)]

/-- Models `duration_weights.get(ph, 1.0)`. -/
def duration_weight (ph : String) : ℚ :=
  (duration_weights.lookup ph).getD 1

/-- Sum of the weights of a phoneme sequence (`total_weight` in the source). -/
def total_weight_of (phonemes : List String) : ℚ :=
  (phonemes.map duration_weight).sum

/-- The clamp `max(min_dur, min(max_dur, duration))` applied to each span. -/
def clampDuration (d : ℚ) : ℚ :=
  max min_phoneme_duration (min max_phoneme_duration d)

/-- Segment list of the uniform strategy, built as the source's enumerate
loop does: segment `i` spans `[i*avg, (i+1)*avg]`. -/
def uniformSegs (avg : ℚ) : ℕ → List String → List (String × ℚ × ℚ)
  | _, [] => []
  | i, ph :: rest => (ph, (i : ℚ) * avg, ((i : ℚ) + 1) * avg) :: uniformSegs avg (i + 1) rest

/-- Strategy 1, `simple_uniform_alignment`: divide the total duration into
equal spans. -/
def simple_uniform_alignment (audio_length : ℕ) (phoneme_sequence : List String)
    (sr : ℕ) : List (String × ℚ × ℚ) :=
  let total_duration : ℚ := (audio_length : ℚ) / (sr : ℚ)
  if phoneme_sequence = [] then []
  else
    let avg_duration := total_duration / (phoneme_sequence.length : ℚ)
    uniformSegs avg_duration 0 phoneme_sequence

/-- Segment list of the duration-weighted strategy: each clamped span is
appended at the running offset `current_time`. -/
def weightedSegs (total_weight total_duration : ℚ) :
    ℚ → List String → List (String × ℚ × ℚ)
  | _, [] => []
  | current_time, ph :: rest =>
    let duration := clampDuration (duration_weight ph / total_weight * total_duration)
    (ph, current_time, current_time + duration) ::
      weightedSegs total_weight total_duration (current_time + duration) rest

/-- Strategy 2, `duration_weighted_alignment`: category-weighted spans,
normalized by the weight total, then clamped to the global bounds and laid
out sequentially. -/
def duration_weighted_alignment (audio_length : ℕ) (phoneme_sequence : List String)
    (sr : ℕ) : List (String × ℚ × ℚ) :=
  let total_duration : ℚ := (audio_length : ℚ) / (sr : ℚ)
  if phoneme_sequence = [] then []
  else weightedSegs (total_weight_of phoneme_sequence) total_duration 0 phoneme_sequence

/-- Models `np.linspace(0, m - 1, k, dtype=int)` for natural `m`, `k` as used
on the candidate change points (exact real spacing, truncated to int). -/
def linspaceIdx (m k : ℕ) : List ℕ :=
  if k = 0 then []
  else if k = 1 then [0]
  else (List.range k).map (fun j => j * (m - 1) / (k - 1))

/-- Zip a phoneme sequence with consecutive boundary pairs, as the source's
final loop over `segment_times` does. -/
def segsFromBounds : List String → List ℚ → List (String × ℚ × ℚ)
  | ph :: rest, t1 :: t2 :: ts => (ph, t1, t2) :: segsFromBounds rest (t2 :: ts)
  | _, _ => []

/-- Strategy 3, `energy_based_alignment`. The RMS/smoothing/thresholding
chain that detects candidate change points runs through librosa and scipy
(external collaborators); its output, the detected frame indices
`change_points`, is a parameter here, and everything from the conversion to
times onwards is translated from the source. -/
def energy_based_alignment (change_points : List ℕ) (audio_length : ℕ)
    (phoneme_sequence : List String) (sr : ℕ) : List (String × ℚ × ℚ) :=
  let hop_length : ℕ := 512
  let time_per_frame : ℚ := (hop_length : ℚ) / (sr : ℚ)
  let change_times : List ℚ := change_points.map (fun p => (p : ℚ) * time_per_frame)
  let total_duration : ℚ := (audio_length : ℚ) / (sr : ℚ)
  if phoneme_sequence = [] then []
  else if change_times.length < phoneme_sequence.length - 1 then
    simple_uniform_alignment audio_length phoneme_sequence sr
  else
    let mids : List ℚ :=
      if 0 < change_times.length then
        (linspaceIdx change_times.length (phoneme_sequence.length - 1)).map
          (fun i => change_times.getD i 0)
      else []
    segsFromBounds phoneme_sequence (0 :: (mids ++ [total_duration]))

/-- Sum of the segment durations `end - start`. -/
def sumDurations (segs : List (String × ℚ × ℚ)) : ℚ :=
  (segs.map (fun x => x.2.2 - x.2.1)).sum

/-- Boolean tiling chain: `chainFrom t total segs` holds when the first
segment starts at `t`, every segment's end equals the next segment's start,
and the last segment's end is `total` (for an empty list, when `t = total`). -/
def chainFrom (t total : ℚ) : List (String × ℚ × ℚ) → Bool
  | [] => t == total
  | (_, s, e) :: rest => s == t && chainFrom e total rest

/-- Sum of the clamped weighted spans of a phoneme sequence. -/
def clampSumOf (phonemes : List String) (total_duration : ℚ) : ℚ :=
  (phonemes.map (fun ph =>
    clampDuration (duration_weight ph / total_weight_of phonemes * total_duration))).sum

/- ### Tiling lemmas -/

theorem uniformSegs_map_fst (avg : ℚ) (i : ℕ) (l : List String) :
    (uniformSegs avg i l).map (fun x => x.1) = l := by
  induction l generalizing i with
  | nil => rfl
  | cons ph rest ih => simp [uniformSegs, ih]

theorem uniformSegs_chain (avg : ℚ) (l : List String) (i : ℕ) :
    chainFrom ((i : ℚ) * avg) (((i : ℚ) + (l.length : ℚ)) * avg)
      (uniformSegs avg i l) = true := by
  induction l generalizing i with
  | nil => simp [uniformSegs, chainFrom]
  | cons ph rest ih =>
    simp only [uniformSegs, chainFrom, Bool.and_eq_true, beq_iff_eq]
    refine ⟨trivial, ?_⟩
    have h := ih (i + 1)
    have harg : (((i : ℚ) + 1) + (rest.length : ℚ)) * avg =
        ((i : ℚ) + ((rest.length : ℚ) + 1)) * avg := by ring
    simpa [Nat.cast_add, Nat.cast_one, List.length_cons, harg] using h

theorem weightedSegs_map_fst (tw td : ℚ) (c : ℚ) (l : List String) :
    (weightedSegs tw td c l).map (fun x => x.1) = l := by
  induction l generalizing c with
  | nil => rfl
  | cons ph rest ih => simp [weightedSegs, ih]

theorem weightedSegs_chain (tw td : ℚ) (l : List String) (c : ℚ) :
    chainFrom c (c + (l.map (fun ph => clampDuration (duration_weight ph / tw * td))).sum)
      (weightedSegs tw td c l) = true := by
  induction l generalizing c with
  | nil => simp [weightedSegs, chainFrom]
  | cons ph rest ih =>
    simp only [weightedSegs, chainFrom, Bool.and_eq_true, beq_iff_eq]
    refine ⟨trivial, ?_⟩
    have h := ih (c + clampDuration (duration_weight ph / tw * td))
    have harg : c + clampDuration (duration_weight ph / tw * td) +
        (rest.map (fun p => clampDuration (duration_weight p / tw * td))).sum =
        c + (List.map (fun p => clampDuration (duration_weight p / tw * td)) (ph :: rest)).sum := by
      simp [List.map_cons]; ring
    rw [← harg]
    exact h

theorem weightedSegs_sumDurations (tw td : ℚ) (c : ℚ) (l : List String) :
    sumDurations (weightedSegs tw td c l) =
      (l.map (fun ph => clampDuration (duration_weight ph / tw * td))).sum := by
  induction l generalizing c with
  | nil => rfl
  | cons ph rest ih => simp [weightedSegs, sumDurations, List.map_cons] at ih ⊢; simp [ih]

/-- Last element of a rational list, with default. -/
def lastDQ (d : ℚ) : List ℚ → ℚ
  | [] => d
  | x :: xs => lastDQ x xs

theorem lastDQ_append_single (d x : ℚ) (xs : List ℚ) :
    lastDQ d (xs ++ [x]) = x := by
  induction xs generalizing d with
  | nil => rfl
  | cons y ys ih => simpa [lastDQ] using ih y

theorem segsFromBounds_map_fst (l : List String) (t : ℚ) (ts : List ℚ)
    (h : ts.length = l.length) : (segsFromBounds l (t :: ts)).map (fun x => x.1) = l := by
  induction l generalizing t ts with
  | nil => cases ts <;> simp_all [segsFromBounds]
  | cons ph rest ih =>
    cases ts with
    | nil => simp at h
    | cons t2 ts2 =>
      simp only [segsFromBounds, List.map_cons, List.cons.injEq, true_and]
      exact ih t2 ts2 (by simpa using h)

theorem segsFromBounds_chain (l : List String) (t : ℚ) (ts : List ℚ) (total : ℚ)
    (h : ts.length = l.length) (hlast : lastDQ t ts = total) :
    chainFrom t total (segsFromBounds l (t :: ts)) = true := by
  induction l generalizing t ts with
  | nil =>
    cases ts with
    | nil => simpa [segsFromBounds, chainFrom, lastDQ] using hlast
    | cons a b => simp at h
  | cons ph rest ih =>
    cases ts with
    | nil => simp at h
    | cons t2 ts2 =>
      simp only [segsFromBounds, chainFrom, Bool.and_eq_true, beq_iff_eq]
      exact ⟨trivial, ih t2 ts2 (by simpa using h) (by simpa [lastDQ] using hlast)⟩

theorem linspaceIdx_length (m k : ℕ) : (linspaceIdx m k).length = k := by
  unfold linspaceIdx
  split_ifs <;> simp_all

/-- Uniform alignment tiles `[0, total_duration]` exactly. -/
theorem simple_uniform_alignment_tiles (audio_length sr : ℕ) (l : List String)
    (hne : l ≠ []) :
    (simple_uniform_alignment audio_length l sr).map (fun x => x.1) = l ∧
    chainFrom 0 ((audio_length : ℚ) / (sr : ℚ))
      (simple_uniform_alignment audio_length l sr) = true := by
  unfold simple_uniform_alignment
  rw [if_neg hne]
  refine ⟨uniformSegs_map_fst _ 0 l, ?_⟩
  have hlen : (l.length : ℚ) ≠ 0 := by
    exact_mod_cast (List.length_pos.mpr hne).ne'
  have h := uniformSegs_chain ((audio_length : ℚ) / (sr : ℚ) / (l.length : ℚ)) l 0
  rw [Nat.cast_zero, zero_mul, zero_add] at h
  have harg : (l.length : ℚ) * ((audio_length : ℚ) / (sr : ℚ) / (l.length : ℚ)) =
      (audio_length : ℚ) / (sr : ℚ) := by
    rw [mul_comm]
    exact div_mul_cancel₀ _ hlen
  rwa [harg] at h

/-- Energy-based alignment tiles `[0, total_duration]` exactly, in both the
fallback branch and the change-point branch. -/
theorem energy_based_alignment_tiles (change_points : List ℕ) (audio_length sr : ℕ)
    (l : List String) (hne : l ≠ []) :
    (energy_based_alignment change_points audio_length l sr).map (fun x => x.1) = l ∧
    chainFrom 0 ((audio_length : ℚ) / (sr : ℚ))
      (energy_based_alignment change_points audio_length l sr) = true := by
  have hpos : 0 < l.length := List.length_pos.mpr hne
  unfold energy_based_alignment
  simp only [if_neg hne]
  set cts : List ℚ :=
    change_points.map (fun p => (p : ℚ) * (((512 : ℕ) : ℚ) / (sr : ℚ))) with hcts
  split_ifs with h1 h2
  · exact simple_uniform_alignment_tiles audio_length sr l hne
  · have hlen : ((linspaceIdx cts.length (l.length - 1)).map (fun i => cts.getD i 0) ++
        [(audio_length : ℚ) / (sr : ℚ)]).length = l.length := by
      rw [List.length_append, List.length_map, linspaceIdx_length]
      simp only [List.length_cons, List.length_nil]
      omega
    exact ⟨segsFromBounds_map_fst l 0 _ hlen,
      segsFromBounds_chain l 0 _ _ hlen (lastDQ_append_single 0 _ _)⟩
  · have hlen : (([] : List ℚ) ++ [(audio_length : ℚ) / (sr : ℚ)]).length = l.length := by
      simp only [List.nil_append, List.length_cons, List.length_nil]
      omega
    exact ⟨segsFromBounds_map_fst l 0 _ hlen,
      segsFromBounds_chain l 0 _ _ hlen (lastDQ_append_single 0 _ _)⟩

/-- Duration-weighted alignment produces contiguous segments from 0 in input
order whose final end is the sum of the clamped spans. -/
theorem duration_weighted_alignment_chain (audio_length sr : ℕ) (l : List String)
    (hne : l ≠ []) :
    (duration_weighted_alignment audio_length l sr).map (fun x => x.1) = l ∧
    chainFrom 0 (clampSumOf l ((audio_length : ℚ) / (sr : ℚ)))
      (duration_weighted_alignment audio_length l sr) = true := by
  unfold duration_weighted_alignment clampSumOf
  simp only [if_neg hne]
  refine ⟨weightedSegs_map_fst _ _ 0 l, ?_⟩
  have h := weightedSegs_chain (total_weight_of l) ((audio_length : ℚ) / (sr : ℚ)) l 0
  simpa using h

/-- Every value of the duration weight table (and the default 1.0) is
positive. -/
theorem lookup_getD_pos (ph : String) (table : List (String × ℚ)) (d : ℚ)
    (hd : 0 < d) (htab : ∀ p ∈ table, 0 < p.2) : 0 < (table.lookup ph).getD d := by
  induction table with
  | nil => simpa using hd
  | cons kv rest ih =>
    obtain ⟨k, v⟩ := kv
    rw [List.lookup_cons]
    split
    · simpa using htab (k, v) (by simp)
    · exact ih (fun p hp => htab p (List.mem_cons_of_mem _ hp))

theorem duration_weights_entries_pos : ∀ p ∈ duration_weights, (0 : ℚ) < p.2 := by
  simp only [duration_weights, List.forall_mem_cons, List.forall_mem_nil]
  norm_num

theorem duration_weight_pos (ph : String) : 0 < duration_weight ph :=
  lookup_getD_pos ph duration_weights 1 one_pos duration_weights_entries_pos

theorem total_weight_pos (l : List String) (hne : l ≠ []) :
    0 < total_weight_of l := by
  cases l with
  | nil => exact absurd rfl hne
  | cons a t =>
    unfold total_weight_of
    rw [List.map_cons, List.sum_cons]
    have h1 := duration_weight_pos a
    have h2 : 0 ≤ (t.map duration_weight).sum := by
      apply List.sum_nonneg
      intro x hx
      obtain ⟨ph, _, rfl⟩ := List.mem_map.mp hx
      exact (duration_weight_pos ph).le
    linarith

theorem sum_map_div_mul (l : List String) (W T : ℚ) :
    (l.map (fun ph => duration_weight ph / W * T)).sum =
      (l.map duration_weight).sum / W * T := by
  induction l with
  | nil => simp
  | cons a t ih =>
    rw [List.map_cons, List.sum_cons, List.map_cons, List.sum_cons, ih]
    ring

/-- C2 counterexample: for the single phoneme `h` over a one-second buffer
the weighted span 1.0 s is clamped to 0.4 s, so the segment durations sum to
0.4 s, not to the total duration 1.0 s (the gap 0.6 s is far beyond the
claimed 1e-6 tolerance). -/
theorem dwa_single_h_eval :
    duration_weighted_alignment 16000 ["h"] 16000 = [("h", 0, 2/5)] := by
  have hw : duration_weight "h" = 0.5 := rfl
  simp only [duration_weighted_alignment, weightedSegs, total_weight_of, List.map_cons,
    List.map_nil, List.sum_cons, List.sum_nil, hw, clampDuration,
    min_phoneme_duration, max_phoneme_duration, if_neg (List.cons_ne_nil "h" [])]
  norm_num [min_def, max_def]

theorem C2_clamping_changes_sum_counterexample :
    duration_weighted_alignment 16000 ["h"] 16000 = [("h", 0, 2/5)] ∧
    sumDurations (duration_weighted_alignment 16000 ["h"] 16000) = 2/5 ∧
    ¬ (|sumDurations (duration_weighted_alignment 16000 ["h"] 16000) -
        ((16000 : ℕ) : ℚ) / ((16000 : ℕ) : ℚ)| ≤ 1 / 1000000) := by
  have hs : sumDurations (duration_weighted_alignment 16000 ["h"] 16000) = 2/5 := by
    rw [dwa_single_h_eval]
    simp only [sumDurations, List.map_cons, List.map_nil, List.sum_cons, List.sum_nil]
    norm_num
  refine ⟨dwa_single_h_eval, hs, ?_⟩
  rw [hs]
  intro hle
  rw [show |(2/5 : ℚ) - ((16000 : ℕ) : ℚ) / ((16000 : ℕ) : ℚ)| = 3/5 by
    rw [abs_of_nonpos (by norm_num)]; norm_num] at hle
  norm_num at hle

/-- C2 amended: the segment durations of the duration-weighted alignment sum
to the sum of the clamped spans; this equals the total duration
`audio_length / sr` exactly whenever no per-phoneme span is altered by the
global `[0.03, 0.4]` clamp (each weight-proportional span already lies inside
the bounds); in general the clamp changes the sum. -/
theorem C2_amended_weighted_sum_exact_when_unclamped (audio_length sr : ℕ)
    (phonemes : List String) (hne : phonemes ≠ [])
    (hbound : ∀ ph ∈ phonemes,
      min_phoneme_duration ≤ duration_weight ph / total_weight_of phonemes *
        ((audio_length : ℚ) / (sr : ℚ)) ∧
      duration_weight ph / total_weight_of phonemes *
        ((audio_length : ℚ) / (sr : ℚ)) ≤ max_phoneme_duration) :
    sumDurations (duration_weighted_alignment audio_length phonemes sr) =
      (audio_length : ℚ) / (sr : ℚ) := by
  unfold duration_weighted_alignment
  simp only [if_neg hne]
  rw [weightedSegs_sumDurations]
  have hW := total_weight_pos phonemes hne
  have hmap : phonemes.map (fun ph => clampDuration (duration_weight ph /
      total_weight_of phonemes * ((audio_length : ℚ) / (sr : ℚ)))) =
      phonemes.map (fun ph => duration_weight ph / total_weight_of phonemes *
        ((audio_length : ℚ) / (sr : ℚ))) := by
    apply List.map_congr_left
    intro ph hph
    rcases hbound ph hph with ⟨hlo, hhi⟩
    unfold clampDuration
    rw [min_eq_right hhi, max_eq_right hlo]
  rw [hmap, sum_map_div_mul]
  show total_weight_of phonemes / total_weight_of phonemes * _ = _
  rw [div_self hW.ne', one_mul]

/-- C2 amended witness at a concrete unclamped input: two phonemes over a
0.3 s buffer get spans 0.2 s and 0.1 s, inside the clamp bounds, and the
durations sum to exactly 0.3 s. -/
theorem C2_amended_witness :
    (["æ", "t"] ≠ ([] : List String)) ∧
    sumDurations (duration_weighted_alignment 4800 ["æ", "t"] 16000) =
      ((4800 : ℕ) : ℚ) / ((16000 : ℕ) : ℚ) := by
  have hb : ∀ ph ∈ ["æ", "t"],
      min_phoneme_duration ≤ duration_weight ph /
        total_weight_of ["æ", "t"] * (((4800 : ℕ) : ℚ) / ((16000 : ℕ) : ℚ)) ∧
      duration_weight ph / total_weight_of ["æ", "t"] *
        (((4800 : ℕ) : ℚ) / ((16000 : ℕ) : ℚ)) ≤ max_phoneme_duration := by
    have h1 : duration_weight "æ" = 1.2 := rfl
    have h2 : duration_weight "t" = 0.6 := rfl
    have hw : total_weight_of ["æ", "t"] = 1.8 := by
      simp only [total_weight_of, List.map_cons, List.map_nil, List.sum_cons,
        List.sum_nil, h1, h2]
      norm_num
    simp only [List.forall_mem_cons, List.forall_mem_nil, h1, h2, hw,
      min_phoneme_duration, max_phoneme_duration]
    norm_num
  exact ⟨by simp,
    C2_amended_weighted_sum_exact_when_unclamped 4800 16000 ["æ", "t"] (by simp) hb⟩

/-- C5 counterexample: the duration-weighted strategy (one of the three
`PhonemeAligner` strategies) does not tile `[0, total_duration]`: for the
phoneme `h` over a one-second buffer the single segment is `[0, 0.4]`, whose
end differs from the total duration 1. -/
theorem C5_duration_weighted_not_tiling_counterexample :
    duration_weighted_alignment 16000 ["h"] 16000 = [("h", 0, 2/5)] ∧
    chainFrom 0 (((16000 : ℕ) : ℚ) / ((16000 : ℕ) : ℚ))
      (duration_weighted_alignment 16000 ["h"] 16000) = false := by
  refine ⟨dwa_single_h_eval, ?_⟩
  rw [dwa_single_h_eval]
  simp only [chainFrom, beq_iff_eq, Bool.and_eq_false_iff, decide_eq_false_iff_not]
  right
  norm_num

/-- C5 amended: for every valid input (non-empty phoneme sequence, positive
sample rate) the uniform and energy-based strategies tile
`[0, total_duration]` exactly — first start 0, each end equal to the next
start, last end equal to the total duration, segments in input order — while
the duration-weighted strategy yields contiguous, ordered segments starting
at 0 whose last end is the sum of the clamped spans (equal to the total
duration only when no span is clamped, cf. the C2 theorems). -/
theorem C5_amended_alignment_strategies_tiling (audio_length sr : ℕ)
    (phonemes : List String) (change_points : List ℕ)
    (hne : phonemes ≠ []) (hsr : 0 < sr) :
    ((simple_uniform_alignment audio_length phonemes sr).map (fun x => x.1) = phonemes ∧
      chainFrom 0 ((audio_length : ℚ) / (sr : ℚ))
        (simple_uniform_alignment audio_length phonemes sr) = true) ∧
    ((energy_based_alignment change_points audio_length phonemes sr).map
        (fun x => x.1) = phonemes ∧
      chainFrom 0 ((audio_length : ℚ) / (sr : ℚ))
        (energy_based_alignment change_points audio_length phonemes sr) = true) ∧
    ((duration_weighted_alignment audio_length phonemes sr).map
        (fun x => x.1) = phonemes ∧
      chainFrom 0 (clampSumOf phonemes ((audio_length : ℚ) / (sr : ℚ)))
        (duration_weighted_alignment audio_length phonemes sr) = true) :=
  ⟨simple_uniform_alignment_tiles audio_length sr phonemes hne,
   energy_based_alignment_tiles change_points audio_length sr phonemes hne,
   duration_weighted_alignment_chain audio_length sr phonemes hne⟩

/-- C5 amended witness at a concrete input: two phonemes, a one-second
buffer, one candidate change point. -/
theorem C5_amended_witness :
    ((simple_uniform_alignment 16000 ["ð", "ə"] 16000).map (fun x => x.1) = ["ð", "ə"] ∧
      chainFrom 0 (((16000 : ℕ) : ℚ) / ((16000 : ℕ) : ℚ))
        (simple_uniform_alignment 16000 ["ð", "ə"] 16000) = true) ∧
    ((energy_based_alignment [3] 16000 ["ð", "ə"] 16000).map
        (fun x => x.1) = ["ð", "ə"] ∧
      chainFrom 0 (((16000 : ℕ) : ℚ) / ((16000 : ℕ) : ℚ))
        (energy_based_alignment [3] 16000 ["ð", "ə"] 16000) = true) ∧
    ((duration_weighted_alignment 16000 ["ð", "ə"] 16000).map
        (fun x => x.1) = ["ð", "ə"] ∧
      chainFrom 0 (clampSumOf ["ð", "ə"] (((16000 : ℕ) : ℚ) / ((16000 : ℕ) : ℚ)))
        (duration_weighted_alignment 16000 ["ð", "ə"] 16000) = true) :=
  C5_amended_alignment_strategies_tiling 16000 16000 ["ð", "ə"] [3]
    (by simp) (by norm_num)

end PhonemeAligner

/- ## UtteranceAggregator: overall-score computation of
`analyze_pronunciation_detailed` (音素评分模块.py, lines 427-478) -/

/-- Quality weight table of the overall-score computation. -/
def quality_weights : List (String × ℚ) :=
  [("excellent", 1.0), ("good", 0.9), ("fair", 0.7), ("poor", 0.4)]

/-- Models `quality_weights.get(quality, 0.5)`. -/
def qualityWeight (q : String) : ℚ :=
  (quality_weights.lookup q).getD 0.5

/-- Severe-issue markers of the aggregator (`'过短' in issue or '过长' in
issue or '能量不足' in issue`). -/
def isSevereIssue (issue : String) : Bool :=
  strContains issue "过短" || strContains issue "过长" || strContains issue "能量不足"

/-- Overall utterance score: quality- and confidence-weighted mean, global
penalties, clamp to [0, 100], then the two final high-score adjustments; 0
for an empty phoneme-score list. The `all_issues` list the source
accumulates in its scoring loop equals the concatenation of the per-phoneme
issue lists. -/
def overall_score_of (phoneme_scores : List PhonemeScore) : ℚ :=
  if phoneme_scores = [] then 0
  else
    let n : ℚ := (phoneme_scores.length : ℚ)
    let weighted_scores :=
      phoneme_scores.map (fun ps => ps.score * ps.confidence * qualityWeight ps.quality)
    let base_score := weighted_scores.sum / n
    let all_issues := (phoneme_scores.map (fun ps => ps.issues)).flatten
    let poor_count := (phoneme_scores.filter (fun ps => ps.quality == "poor")).length
    let fair_count := (phoneme_scores.filter (fun ps => ps.quality == "fair")).length
    let penalty1 : ℚ :=
      if (poor_count : ℚ) / n > 0.3 then 15
      else if (poor_count : ℚ) / n > 0.2 then 10 else 0
    let penalty2 : ℚ := if (fair_count : ℚ) / n > 0.4 then 8 else 0
    let penalty3 : ℚ :=
      if (all_issues.length : ℚ) > n * 0.5 then 12
      else if (all_issues.length : ℚ) > n * 0.3 then 6 else 0
    let severe_issues := all_issues.filter isSevereIssue
    let penalty4 : ℚ := if severe_issues.length > 3 then 10 else 0
    let penalty := penalty1 + penalty2 + penalty3 + penalty4
    let s1 := max 0 (min 100 (base_score - penalty))
    let s2 :=
      if s1 > 85 ∧ ((poor_count : ℚ) / n > 0.1 ∨ severe_issues.length > 1) then
        min 85 (s1 - 5)
      else s1
    if s2 > 75 ∧ (poor_count : ℚ) / n > 0.2 then min 75 (s2 - 5) else s2

/-- Quality weight exactly as the C4 claim words it (weights for the four
labels only; written from the claim for the refinement comparison). -/
def specQualityWeight (q : String) : ℚ :=
  if q = "excellent" then 1 else if q = "good" then 0.9
  else if q = "fair" then 0.7 else if q = "poor" then 0.4 else 0

/-- Overall score as the AMENDED C4 claim words it: weighted mean minus the
global penalties, clamped to [0, 100]; then, instead of a plain cap, the
value is replaced by `min(85, value - 5)` when it exceeds 85 while the poor
ratio exceeds 0.1 or more than one severe issue exists, and by
`min(75, value - 5)` when it (still) exceeds 75 while the poor ratio exceeds
0.2; zero phonemes give 0. -/
def specOverallScore (l : List PhonemeScore) : ℚ :=
  if l = [] then 0
  else
    let n : ℚ := (l.length : ℚ)
    let mean := (l.map (fun ps => ps.score * ps.confidence * specQualityWeight ps.quality)).sum / n
    let issues := (l.map (fun ps => ps.issues)).flatten
    let poorRatioQ := ((l.filter (fun ps => ps.quality == "poor")).length : ℚ) / n
    let fairRatioQ := ((l.filter (fun ps => ps.quality == "fair")).length : ℚ) / n
    let sev := (issues.filter isSevereIssue).length
    let pen : ℚ :=
      (if poorRatioQ > 0.3 then 15 else if poorRatioQ > 0.2 then 10 else 0) +
      (if fairRatioQ > 0.4 then 8 else 0) +
      (if (issues.length : ℚ) > n * 0.5 then 12
       else if (issues.length : ℚ) > n * 0.3 then 6 else 0) +
      (if sev > 3 then 10 else 0)
    let c := max 0 (min 100 (mean - pen))
    let c1 := if c > 85 ∧ (poorRatioQ > 0.1 ∨ sev > 1) then min 85 (c - 5) else c
    if c1 > 75 ∧ poorRatioQ > 0.2 then min 75 (c1 - 5) else c1

/-- Overall score as the ORIGINAL C4 claim words it: identical except that
the two final adjustments CAP the value at 85 resp. 75 (set it to the cap)
instead of subtracting 5 first. -/
def specOverallScoreClaimed (l : List PhonemeScore) : ℚ :=
  if l = [] then 0
  else
    let n : ℚ := (l.length : ℚ)
    let mean := (l.map (fun ps => ps.score * ps.confidence * specQualityWeight ps.quality)).sum / n
    let issues := (l.map (fun ps => ps.issues)).flatten
    let poorRatioQ := ((l.filter (fun ps => ps.quality == "poor")).length : ℚ) / n
    let fairRatioQ := ((l.filter (fun ps => ps.quality == "fair")).length : ℚ) / n
    let sev := (issues.filter isSevereIssue).length
    let pen : ℚ :=
      (if poorRatioQ > 0.3 then 15 else if poorRatioQ > 0.2 then 10 else 0) +
      (if fairRatioQ > 0.4 then 8 else 0) +
      (if (issues.length : ℚ) > n * 0.5 then 12
       else if (issues.length : ℚ) > n * 0.3 then 6 else 0) +
      (if sev > 3 then 10 else 0)
    let c := max 0 (min 100 (mean - pen))
    let c1 := if c > 85 ∧ (poorRatioQ > 0.1 ∨ sev > 1) then (85 : ℚ) else c
    if c1 > 75 ∧ poorRatioQ > 0.2 then (75 : ℚ) else c1

/-- A clean phoneme score used in the C4 input: score 100, excellent,
confidence 1, no issues. -/
def psExcellent : PhonemeScore :=
  { phoneme := "s", start_time := 0, end_time := 0.1, score := 100,
    confidence := 1, quality := "excellent", issues := [] }

/-- A poor phoneme score with no issues used in the C4 input. -/
def psPoor : PhonemeScore :=
  { phoneme := "t", start_time := 0.1, end_time := 0.2, score := 50,
    confidence := 1, quality := "poor", issues := [] }

/-- The concrete C4 input: five clean excellent phonemes and one poor one,
so the weighted mean is 520/6 = 260/3 ≈ 86.67 and the poor ratio is 1/6. -/
def c4Input : List PhonemeScore :=
  [psExcellent, psExcellent, psExcellent, psExcellent, psExcellent, psPoor]

theorem qualityWeight_excellent : qualityWeight "excellent" = 1.0 := rfl

theorem qualityWeight_poor : qualityWeight "poor" = 0.4 := rfl

/-- C4 counterexample: on `c4Input` the weighted mean is 260/3 with no
penalties, it exceeds 85 while the poor ratio 1/6 exceeds 0.1, and the code
then subtracts 5 first — `min(85, 260/3 - 5) = 245/3 ≈ 81.67` — whereas the
claim's "capped at 85" yields 85. -/
theorem C4_final_adjustment_not_a_cap_counterexample :
    overall_score_of c4Input = 245/3 ∧
    specOverallScoreClaimed c4Input = 85 ∧
    overall_score_of c4Input ≠ specOverallScoreClaimed c4Input := by
  have h1 : overall_score_of c4Input = 245/3 := by
    unfold overall_score_of c4Input psExcellent psPoor
    simp [qualityWeight, quality_weights, List.lookup, List.filter, isSevereIssue]
    norm_num [min_def, max_def]
  have h2 : specOverallScoreClaimed c4Input = 85 := by
    unfold specOverallScoreClaimed c4Input psExcellent psPoor
    simp [specQualityWeight, List.filter, isSevereIssue]
    norm_num [min_def, max_def]
  exact ⟨h1, h2, by rw [h1, h2]; norm_num⟩

/-- C4 amended: for every list of `PhonemeScore`s whose quality labels are
among the four defined levels, the overall utterance score computed by the
code equals the amended claim's formula (weighted mean, penalties, clamp,
then `min(85, x - 5)` / `min(75, x - 5)` adjustments; 0 for no phonemes). -/
theorem C4_amended_overall_score_formula (l : List PhonemeScore)
    (hq : ∀ ps ∈ l, ps.quality = "excellent" ∨ ps.quality = "good" ∨
      ps.quality = "fair" ∨ ps.quality = "poor") :
    overall_score_of l = specOverallScore l := by
  unfold overall_score_of specOverallScore
  rcases eq_or_ne l [] with rfl | hne
  · rfl
  · simp only [if_neg hne]
    have hmap : l.map (fun ps => ps.score * ps.confidence * qualityWeight ps.quality) =
        l.map (fun ps => ps.score * ps.confidence * specQualityWeight ps.quality) := by
      apply List.map_congr_left
      intro ps hps
      rcases hq ps hps with h | h | h | h <;>
        rw [h] <;>
        simp [qualityWeight, quality_weights, List.lookup, specQualityWeight] <;>
        norm_num
    rw [hmap]

/-- C4 amended witness at the concrete input `c4Input`: the code's score and
the amended formula agree there (both 245/3). -/
theorem C4_amended_witness : overall_score_of c4Input = specOverallScore c4Input :=
  C4_amended_overall_score_formula c4Input (by
    intro ps hps
    fin_cases hps <;> simp [psExcellent, psPoor])

/- ## WordAggregator: `analyze_word_pronunciation` (音素评分模块.py,
lines 692-797) and its suggestion helpers -/

/-- Word-level quality weights (worse quality divides the score more). -/
def word_quality_weights : List (String × ℚ) :=
  [("excellent", 1.0), ("good", 1.1), ("fair", 1.3), ("poor", 1.5)]

/-- Models `quality_weights.get(quality, 1.0)` of the word scorer. -/
def wordQualityWeight (q : String) : ℚ :=
  (word_quality_weights.lookup q).getD 1.0

/-- Severe-issue markers of the word scorer (`过短`, `过长`, `能量不足`,
`不稳定`). -/
def isSevereWordIssue (issue : String) : Bool :=
  strContains issue "过短" || strContains issue "过长" ||
    strContains issue "能量不足" || strContains issue "不稳定"

/-- Python `round(x, 1)`: round half to even at one decimal (the source
rounds the word score for display). -/
def roundHalfEven (q : ℚ) : ℤ :=
  if q - (⌊q⌋ : ℚ) < 1/2 then ⌊q⌋
  else if q - (⌊q⌋ : ℚ) > 1/2 then ⌊q⌋ + 1
  else if ⌊q⌋ % 2 = 0 then ⌊q⌋ else ⌊q⌋ + 1

/-- Models `round(word_score, 1)`. -/
def pythonRound1 (q : ℚ) : ℚ :=
  ((roundHalfEven (q * 10) : ℤ) : ℚ) / 10

/-- Word-specific pronunciation tips `_get_word_specific_suggestions`'s
fixed table. -/
def word_tips : List (String × String) :=
  [("the", "注意 'th' 的发音，舌尖轻触上齿"),
   ("this", "'th' 和 'is' 要连接自然，不要停顿"),
   ("that", "强调 'th' 的摩擦音和 'a' 的开口度"),
   ("think", "'th' 和 'ink' 的连接要流畅"),
   ("thank", "'th' + 'ank'，注意鼻音 'n'"),
   ("with", "'w' 要圆唇，'th' 要清晰"),
   ("water", "注意 'wa' 的双唇收缩和 'ter' 的卷舌音"),
   ("work", "'w' 圆唇开始，'or' 要有适当的元音长度"),
   ("world", "'w' + 'or' + 'ld'，最后的 'ld' 要清晰"),
   ("beautiful", "注意重音在 'beau'，'ti' 要轻读"),
   ("important", "重音在 'por'，注意每个音节的清晰度"),
   ("different", "'dif' + 'fer' + 'ent'，注意重音分配"),
   ("school", "'sch' 要连续发音，'ool' 要拖长"),
   ("people", "'peo' + 'ple'，注意最后的轻音节"),
   ("because", "'be' + 'cause'，重音在 'cause'")]

/-- Per-phoneme remediation tip of `_get_word_specific_suggestions`
(at most one suggestion per problematic phoneme). -/
def phonemeTip (phoneme : String) : List String :=
  if phoneme = "θ" then ["练习 'th' 音：舌尖轻触上齿，气流从舌齿间通过"]
  else if phoneme = "ð" then ["浊 'th' 音要有声带振动，与清 'th' 区分"]
  else if phoneme = "r" then ["英语 'r' 音：舌尖不触碰任何部位，轻微卷起"]
  else if phoneme = "l" then ["'l' 音：舌尖抵住上齿龈，气流从舌侧流出"]
  else if phoneme ∈ ["æ", "ɑː", "ɒ"] then ["开口元音：需要更大的张口度和更低的舌位"]
  else if phoneme ∈ ["iː", "ɪ"] then ["高元音：舌位要高，嘴型略扁"]
  else if phoneme ∈ ["s", "z"] then ["'s/z' 音：舌尖接近上齿龈，保持狭窄缝隙"]
  else if phoneme ∈ ["ʃ", "ʒ"] then ["'sh/zh' 音：舌身抬高，唇部略圆"]
  else []

/-- Models `_get_word_specific_suggestions`. -/
def get_word_specific_suggestions (word : String) (problematic : List String) :
    List String :=
  (match word_tips.lookup word with
   | some tip => [tip]
   | none => []) ++ (problematic.map phonemeTip).flatten

/-- Models `_generate_word_suggestions` (the `list(set(...))` of the source
has unspecified Python-set ordering; it is modelled as order-preserving
deduplication). -/
def generate_word_suggestions (word : String) (phoneme_scores : List PhonemeScore)
    (issues : List String) : List String :=
  let poor_phonemes := (phoneme_scores.filter (fun ps => ps.quality == "poor")).map
    (fun ps => ps.phoneme)
  let fair_phonemes := (phoneme_scores.filter (fun ps => ps.quality == "fair")).map
    (fun ps => ps.phoneme)
  let timing_issues := issues.filter
    (fun i => strContains i "过短" || strContains i "过长")
  let clarity_issues := issues.filter
    (fun i => strContains i "不稳定" || strContains i "清晰" || strContains i "能量不足")
  (if timing_issues ≠ [] then
    ["单词 '" ++ word ++ "' 的发音节奏需要调整，注意每个音素的时长"] else []) ++
  (if clarity_issues ≠ [] then
    ["单词 '" ++ word ++ "' 需要更清晰的发音，注意口型和发声"] else []) ++
  (if poor_phonemes ≠ [] then
    ["单词 '" ++ word ++ "' 中的音素 [" ++
      String.intercalate ", " poor_phonemes.dedup ++ "] 需要重点练习"] else []) ++
  (if fair_phonemes ≠ [] ∧ poor_phonemes = [] then
    ["单词 '" ++ word ++ "' 的发音基本正确，可以进一步完善"] else []) ++
  get_word_specific_suggestions word (poor_phonemes ++ fair_phonemes) ++
  (if poor_phonemes = [] ∧ fair_phonemes = [] ∧ timing_issues = [] ∧
      clarity_issues = [] then
    ["单词 '" ++ word ++ "' 的发音很好！"] else [])

/-- Window search of the word matcher: scan indices `i, i+1, ...` for `fuel`
steps for a phoneme-score entry with the wanted phoneme, returning the entry
and the next cursor `i + 1`; indices past the end stop the scan, as the
Python `range` upper bound `min(len, idx + 3)` does. -/
def searchWindow (scores : List PhonemeScore) (phoneme : String) :
    ℕ → ℕ → Option (PhonemeScore × ℕ)
  | _, 0 => none
  | i, fuel + 1 =>
    match scores[i]? with
    | none => none
    | some ps =>
      if ps.phoneme = phoneme then some (ps, i + 1)
      else searchWindow scores phoneme (i + 1) fuel

/-- One matching step of `analyze_word_pronunciation`: exact match at the
cursor, otherwise a search over the window `[max(0, idx-2), min(len, idx+3))`;
`none` when the cursor is already past the end (the source's outer bound
check) or nothing matches, leaving the cursor unchanged. -/
def findPhoneme (scores : List PhonemeScore) (idx : ℕ) (phoneme : String) :
    Option (PhonemeScore × ℕ) :=
  match scores[idx]? with
  | none => none
  | some ps =>
    if ps.phoneme = phoneme then some (ps, idx + 1)
    else searchWindow scores phoneme (idx - 2) ((idx + 3) - (idx - 2))

/-- Collect the phoneme scores of one word, advancing the shared cursor as
the source's inner loop does; an unmatched phoneme leaves the cursor and
collection unchanged. -/
def collectWordScores (scores : List PhonemeScore) (idx0 : ℕ)
    (word_phonemes : List String) : ℕ × List PhonemeScore :=
  word_phonemes.foldl (fun st phoneme =>
    match findPhoneme scores st.1 phoneme with
    | some (ps, idx1) => (idx1, st.2 ++ [ps])
    | none => st) (idx0, ([] : List PhonemeScore))

/-- Build one per-word record, from the collected phoneme scores (sentinel
with score 0 and quality `unknown` when none could be resolved). -/
def analyzeWord (word_clean : String) (word_phonemes : List String)
    (collected : List PhonemeScore) : WordScore :=
  if collected = [] then
    { word := word_clean, score := 0, quality := "unknown",
      phonemes := word_phonemes, phoneme_scores := [],
      issues := ["无法获取该单词的详细发音分析"],
      suggestions := ["请重点练习单词 '" ++ word_clean ++ "' 的发音"],
      needs_improvement := true }
  else
    let word_issues := (collected.map (fun ps => ps.issues)).flatten
    let weighted := collected.map (fun ps => ps.score / wordQualityWeight ps.quality)
    let base := weighted.sum / (collected.length : ℚ)
    let severe_issues := word_issues.filter isSevereWordIssue
    let word_score :=
      if (severe_issues.length : ℚ) > (word_phonemes.length : ℚ) * 0.3 then
        base * 0.85
      else base
    { word := word_clean, score := pythonRound1 word_score,
      quality := get_quality_level word_score, phonemes := word_phonemes,
      phoneme_scores := collected, issues := word_issues.dedup,
      suggestions := generate_word_suggestions word_clean collected word_issues,
      needs_improvement := decide (word_score < 70) || decide (severe_issues.length > 0) }

/-- One word of the outer loop of `analyze_word_pronunciation`: clean the
word, look it up in the word-phoneme mapping (a word absent from the mapping
contributes nothing, as in the source's guard), collect and analyze. -/
def wordStep (mapping : List (String × List String))
    (phoneme_scores : List PhonemeScore) (st : ℕ × List WordScore)
    (word : String) : ℕ × List WordScore :=
  let word_clean := cleanWord (lowerStr word)
  match mapping.lookup word_clean with
  | some word_phonemes =>
    let r := collectWordScores phoneme_scores st.1 word_phonemes
    (r.1, st.2 ++ [analyzeWord word_clean word_phonemes r.2])
  | none => st

/-- Models `analyze_word_pronunciation`. -/
def analyze_word_pronunciation (words : List String)
    (mapping : List (String × List String))
    (phoneme_scores : List PhonemeScore) : List WordScore :=
  (words.foldl (wordStep mapping phoneme_scores) (0, [])).2

/-- Every record emitted by the word analysis is an `analyzeWord` result. -/
theorem mem_foldl_wordStep (mapping : List (String × List String))
    (scores : List PhonemeScore) (ws : WordScore) :
    ∀ (words : List String) (st : ℕ × List WordScore),
      ws ∈ (words.foldl (wordStep mapping scores) st).2 →
      ws ∈ st.2 ∨ ∃ wc wp col, ws = analyzeWord wc wp col := by
  intro words
  induction words with
  | nil => intro st h; exact Or.inl h
  | cons w t ih =>
    intro st h
    rw [List.foldl_cons] at h
    rcases ih (wordStep mapping scores st w) h with hmem | hex
    · simp only [wordStep] at hmem
      rcases hlk : (mapping.lookup (cleanWord (lowerStr w))) with _ | wp <;>
        rw [hlk] at hmem <;>
        simp only [List.mem_append, List.mem_singleton] at hmem
      · exact Or.inl hmem
      · rcases hmem with hmem | rfl
        · exact Or.inl hmem
        · exact Or.inr ⟨cleanWord (lowerStr w), wp, _, rfl⟩
    · exact Or.inr hex

/-- The sentinel branch of `analyzeWord` has the claimed shape, and the
non-sentinel branch keeps the collected scores. -/
theorem analyzeWord_no_scores (wc : String) (wp : List String)
    (col : List PhonemeScore) (h : (analyzeWord wc wp col).phoneme_scores = []) :
    (analyzeWord wc wp col).score = 0 ∧ (analyzeWord wc wp col).quality = "unknown" ∧
    (analyzeWord wc wp col).issues ≠ [] ∧
    (analyzeWord wc wp col).needs_improvement = true := by
  rcases eq_or_ne col [] with rfl | hcol
  · simp [analyzeWord]
  · exfalso
    apply hcol
    unfold analyzeWord at h
    rw [if_neg hcol] at h
    simpa using h

/-- C7: a word whose expected phonemes resolve to no entry of the
phoneme-score sequence yields a sentinel WordScore — score 0, quality
`unknown`, a non-empty diagnostic issue list, `needs_improvement` true —
and the word-level analysis is a total function (it never raises). -/
theorem C7_unresolvable_word_yields_sentinel (words : List String)
    (mapping : List (String × List String)) (scores : List PhonemeScore)
    (ws : WordScore) (hmem : ws ∈ analyze_word_pronunciation words mapping scores)
    (hempty : ws.phoneme_scores = []) :
    ws.score = 0 ∧ ws.quality = "unknown" ∧ ws.issues ≠ [] ∧
    ws.needs_improvement = true := by
  rcases mem_foldl_wordStep mapping scores ws words (0, []) hmem with habs | ⟨wc, wp, col, rfl⟩
  · simp at habs
  · exact analyzeWord_no_scores wc wp col hempty

/-- C7 witness: with an empty phoneme-score sequence the word `the` (mapped
to `[ð, ə]`) resolves nothing and yields the sentinel record. -/
theorem C7_witness :
    (analyzeWord "the" ["ð", "ə"] [] ∈
      analyze_word_pronunciation ["the"] [("the", ["ð", "ə"])] []) ∧
    ((analyzeWord "the" ["ð", "ə"] []).score = 0 ∧
      (analyzeWord "the" ["ð", "ə"] []).quality = "unknown" ∧
      (analyzeWord "the" ["ð", "ə"] []).issues ≠ [] ∧
      (analyzeWord "the" ["ð", "ə"] []).needs_improvement = true) := by
  have hres : analyze_word_pronunciation ["the"] [("the", ["ð", "ə"])] [] =
      [analyzeWord "the" ["ð", "ə"] []] := rfl
  have hmem : analyzeWord "the" ["ð", "ə"] [] ∈
      analyze_word_pronunciation ["the"] [("the", ["ð", "ə"])] [] := by
    rw [hres]
    exact List.mem_singleton.mpr rfl
  exact ⟨hmem, C7_unresolvable_word_yields_sentinel ["the"] [("the", ["ð", "ə"])] []
    (analyzeWord "the" ["ð", "ə"] []) hmem rfl⟩

/- ## AcousticFeatureExtractor (音素特征提取.py, lines 9-192) -/

/-- Environment of one `extract_all_features` call: which sub-extractors
throw (librosa/scipy failures are external events), how many frames carry a
detected pitch, and the numeric value each successfully computed feature
takes (library DSP output, abstracted; array-valued features are abstracted
as one numeric placeholder each, since only key presence and the zeroed
defaults matter to the claims). -/
structure FeatureEnv where
  f0Throws : Bool
  formantThrows : Bool
  spectralThrows : Bool
  temporalThrows : Bool
  validF0Count : ℕ
  val : String → ℚ

/-- Keys of the pitch sub-extractor. -/
def f0_keys : List String :=
  ["f0_mean", "f0_std", "f0_median", "f0_range", "f0_slope", "voicing_rate"]

/-- Zeroed default dict of the pitch sub-extractor (returned both on an
exception and when no frame carries a valid pitch). -/
def f0_zero_features : List (String × ℚ) :=
  [("f0_mean", 0), ("f0_std", 0), ("f0_median", 0), ("f0_range", 0),
   ("f0_slope", 0), ("voicing_rate", 0)]

/-- Models `extract_f0_features`: zeroed defaults on failure or when no
voiced frame exists; otherwise the computed statistics, with the slope 0
when fewer than two voiced frames exist. -/
def extract_f0_features (env : FeatureEnv) : List (String × ℚ) :=
  if env.f0Throws then f0_zero_features
  else if env.validF0Count = 0 then f0_zero_features
  else
    [("f0_mean", env.val "f0_mean"), ("f0_std", env.val "f0_std"),
     ("f0_median", env.val "f0_median"), ("f0_range", env.val "f0_range"),
     ("voicing_rate", env.val "voicing_rate"),
     ("f0_slope", if 1 < env.validF0Count then env.val "f0_slope" else 0)]

/-- Keys of the formant sub-extractor. -/
def formant_keys : List String :=
  ["f1", "f2", "f3", "f1_f2_ratio", "formant_bandwidth"]

/-- Zeroed default dict of the formant sub-extractor. -/
def formant_zero_features : List (String × ℚ) :=
  [("f1", 0), ("f2", 0), ("f3", 0), ("f1_f2_ratio", 0), ("formant_bandwidth", 0)]

/-- Models `extract_formant_features`: zeroed defaults on failure or when
the (pre-emphasized, same-length) signal is not longer than the LPC order
10; otherwise the peak-derived values, with the f2/f1 ratio zero when f1 is
zero. -/
def extract_formant_features (env : FeatureEnv) (audioLen : ℕ) : List (String × ℚ) :=
  if env.formantThrows then formant_zero_features
  else if 10 < audioLen then
    [("f1", env.val "f1"), ("f2", env.val "f2"), ("f3", env.val "f3"),
     ("f1_f2_ratio", if 0 < env.val "f1" then env.val "f2" / env.val "f1" else 0),
     ("formant_bandwidth", env.val "formant_bandwidth")]
  else formant_zero_features

/-- Keys of the spectral sub-extractor. -/
def spectral_keys : List String :=
  ["spectral_centroid_mean", "spectral_centroid_std", "spectral_bandwidth_mean",
   "spectral_bandwidth_std", "spectral_contrast_mean", "spectral_rolloff_mean",
   "mfcc_mean", "mfcc_std", "chroma_mean", "chroma_std"]

/-- Models `extract_spectral_features`: an EMPTY dict on failure (not zeroed
defaults), otherwise all ten keys. -/
def extract_spectral_features (env : FeatureEnv) : List (String × ℚ) :=
  if env.spectralThrows then [] else spectral_keys.map (fun k => (k, env.val k))

/-- Keys of the temporal sub-extractor. -/
def temporal_keys : List String :=
  ["rms_mean", "rms_std", "zcr_mean", "zcr_std", "energy_mean", "energy_std",
   "energy_max", "silence_ratio"]

/-- Models `extract_temporal_features`: an EMPTY dict on failure, otherwise
all eight keys. -/
def extract_temporal_features (env : FeatureEnv) : List (String × ℚ) :=
  if env.temporalThrows then [] else temporal_keys.map (fun k => (k, env.val k))

/-- Python `dict.update`: keys of `upd` override those of `base`. -/
def dictUpdate (base upd : List (String × ℚ)) : List (String × ℚ) :=
  base.filter (fun p => (upd.lookup p.1).isNone) ++ upd

/-- Models `extract_all_features`: empty for a zero-length buffer, otherwise
the four sub-extractor dicts merged in order. -/
def extract_all_features (env : FeatureEnv) (audioLen : ℕ) : List (String × ℚ) :=
  if audioLen = 0 then []
  else
    dictUpdate (dictUpdate (dictUpdate (extract_f0_features env)
      (extract_formant_features env audioLen)) (extract_spectral_features env))
      (extract_temporal_features env)

/- ### Association-list lemmas -/

theorem lookup_append_q (l1 l2 : List (String × ℚ)) (k : String) :
    (l1 ++ l2).lookup k =
      (match l1.lookup k with
       | some v => some v
       | none => l2.lookup k) := by
  induction l1 with
  | nil => simp
  | cons p t ih =>
    obtain ⟨a, b⟩ := p
    rw [List.cons_append, List.lookup_cons, List.lookup_cons]
    cases hb : (k == a) <;> simp [ih]

theorem lookup_filter_of_isSome (base upd : List (String × ℚ)) (k : String)
    (h : (upd.lookup k).isSome = true) :
    (base.filter (fun p => (upd.lookup p.1).isNone)).lookup k = none := by
  induction base with
  | nil => rfl
  | cons p t ih =>
    obtain ⟨a, b⟩ := p
    rw [List.filter_cons]
    by_cases hk : (k == a) = true
    · have hak : a = k := (beq_iff_eq.mp hk).symm
      have : ((upd.lookup a).isNone : Bool) = false := by
        rw [hak]
        cases hcase : upd.lookup k with
        | none => rw [hcase] at h; simp at h
        | some v => rfl
      simp only [this, Bool.false_eq_true, if_false]
      exact ih
    · by_cases hcond : ((upd.lookup a).isNone : Bool) = true
      · simp only [hcond, if_true]
        rw [List.lookup_cons]
        cases hkb : (k == a)
        · exact ih
        · exact absurd hkb hk
      · simp only [Bool.not_eq_true] at hcond
        simp only [hcond, Bool.false_eq_true, if_false]
        exact ih

theorem lookup_filter_of_none (base upd : List (String × ℚ)) (k : String)
    (h : upd.lookup k = none) :
    (base.filter (fun p => (upd.lookup p.1).isNone)).lookup k = base.lookup k := by
  induction base with
  | nil => rfl
  | cons p t ih =>
    obtain ⟨a, b⟩ := p
    rw [List.filter_cons]
    by_cases hk : (k == a) = true
    · have hak : a = k := (beq_iff_eq.mp hk).symm
      have hcond : ((upd.lookup a).isNone : Bool) = true := by
        rw [hak, h]
        rfl
      simp only [hcond, if_true]
      rw [List.lookup_cons, List.lookup_cons, hk]
    · by_cases hcond : ((upd.lookup a).isNone : Bool) = true
      · simp only [hcond, if_true]
        rw [List.lookup_cons, List.lookup_cons]
        cases hkb : (k == a)
        · exact ih
        · exact absurd hkb hk
      · simp only [Bool.not_eq_true] at hcond
        simp only [hcond, Bool.false_eq_true, if_false]
        rw [ih, List.lookup_cons]
        cases hkb : (k == a)
        · rfl
        · exact absurd hkb hk

/-- Lookup through a Python-style dict update: the updating dict wins. -/
theorem dictUpdate_lookup (base upd : List (String × ℚ)) (k : String) :
    (dictUpdate base upd).lookup k =
      (match upd.lookup k with
       | some v => some v
       | none => base.lookup k) := by
  unfold dictUpdate
  rw [lookup_append_q]
  cases h : upd.lookup k with
  | none =>
    rw [lookup_filter_of_none base upd k h]
    cases hb : base.lookup k <;> simp [h]
  | some v =>
    rw [lookup_filter_of_isSome base upd k (by rw [h]; rfl)]

theorem lookup_eq_none_of_not_mem_q (l : List (String × ℚ)) (k : String)
    (h : k ∉ l.map Prod.fst) : l.lookup k = none := by
  induction l with
  | nil => rfl
  | cons p t ih =>
    obtain ⟨a, b⟩ := p
    simp only [List.map_cons, List.mem_cons, not_or] at h
    rw [List.lookup_cons]
    cases hkb : (k == a)
    · exact ih h.2
    · exact absurd (beq_iff_eq.mp hkb) h.1

theorem lookup_map_keys (keys : List String) (f : String → ℚ) (k : String) :
    ((keys.map (fun k0 => (k0, f k0))).lookup k) =
      if k ∈ keys then some (f k) else none := by
  induction keys with
  | nil => rfl
  | cons a t ih =>
    rw [List.map_cons, List.lookup_cons]
    by_cases hk : k = a
    · subst hk
      simp
    · have : (k == a) = false := beq_eq_false_iff_ne.mpr hk
      rw [this]
      simp only [List.mem_cons]
      rw [ih]
      by_cases hm : k ∈ t <;> simp [hm, hk]

/- ### Key-presence lemmas for the sub-extractors -/

theorem f0_lookup_isSome (env : FeatureEnv) (k : String) (hk : k ∈ f0_keys) :
    ((extract_f0_features env).lookup k).isSome = true := by
  unfold f0_keys at hk
  unfold extract_f0_features f0_zero_features
  fin_cases hk <;> split_ifs <;> rfl

theorem f0_lookup_zero (env : FeatureEnv) (k : String) (hthrow : env.f0Throws = true)
    (hk : k ∈ f0_keys) : (extract_f0_features env).lookup k = some 0 := by
  unfold f0_keys at hk
  unfold extract_f0_features
  rw [if_pos hthrow]
  unfold f0_zero_features
  fin_cases hk <;> rfl

theorem f0_map_fst_subset (env : FeatureEnv) :
    ∀ x ∈ (extract_f0_features env).map Prod.fst, x ∈ f0_keys := by
  unfold extract_f0_features f0_zero_features
  split_ifs <;> intro x hx <;> simp [f0_keys] at hx ⊢ <;> tauto

theorem f0_lookup_none (env : FeatureEnv) (k : String) (hk : k ∉ f0_keys) :
    (extract_f0_features env).lookup k = none :=
  lookup_eq_none_of_not_mem_q _ k (fun hmem => hk (f0_map_fst_subset env k hmem))

theorem formant_lookup_isSome (env : FeatureEnv) (len : ℕ) (k : String)
    (hk : k ∈ formant_keys) :
    ((extract_formant_features env len).lookup k).isSome = true := by
  unfold formant_keys at hk
  unfold extract_formant_features formant_zero_features
  fin_cases hk <;> split_ifs <;> rfl

theorem formant_lookup_zero (env : FeatureEnv) (len : ℕ) (k : String)
    (hthrow : env.formantThrows = true) (hk : k ∈ formant_keys) :
    (extract_formant_features env len).lookup k = some 0 := by
  unfold formant_keys at hk
  unfold extract_formant_features
  rw [if_pos hthrow]
  unfold formant_zero_features
  fin_cases hk <;> rfl

theorem formant_map_fst_subset (env : FeatureEnv) (len : ℕ) :
    ∀ x ∈ (extract_formant_features env len).map Prod.fst, x ∈ formant_keys := by
  unfold extract_formant_features formant_zero_features
  split_ifs <;> intro x hx <;> simp [formant_keys] at hx ⊢ <;> tauto

theorem formant_lookup_none (env : FeatureEnv) (len : ℕ) (k : String)
    (hk : k ∉ formant_keys) : (extract_formant_features env len).lookup k = none :=
  lookup_eq_none_of_not_mem_q _ k (fun hmem => hk (formant_map_fst_subset env len k hmem))

theorem spectral_lookup_eq (env : FeatureEnv) (k : String) :
    (extract_spectral_features env).lookup k =
      if env.spectralThrows then none
      else if k ∈ spectral_keys then some (env.val k) else none := by
  unfold extract_spectral_features
  by_cases h : env.spectralThrows = true
  · simp [h]
  · simp only [Bool.not_eq_true] at h
    simp only [h, Bool.false_eq_true, if_false]
    rw [lookup_map_keys]

theorem spectral_lookup_none (env : FeatureEnv) (k : String)
    (hk : k ∉ spectral_keys) : (extract_spectral_features env).lookup k = none := by
  rw [spectral_lookup_eq]
  by_cases h : env.spectralThrows = true
  · rw [if_pos h]
  · rw [if_neg h, if_neg hk]

theorem temporal_lookup_eq (env : FeatureEnv) (k : String) :
    (extract_temporal_features env).lookup k =
      if env.temporalThrows then none
      else if k ∈ temporal_keys then some (env.val k) else none := by
  unfold extract_temporal_features
  by_cases h : env.temporalThrows = true
  · simp [h]
  · simp only [Bool.not_eq_true] at h
    simp only [h, Bool.false_eq_true, if_false]
    rw [lookup_map_keys]

theorem temporal_lookup_none (env : FeatureEnv) (k : String)
    (hk : k ∉ temporal_keys) : (extract_temporal_features env).lookup k = none := by
  rw [temporal_lookup_eq]
  by_cases h : env.temporalThrows = true
  · rw [if_pos h]
  · rw [if_neg h, if_neg hk]

theorem f0_keys_disjoint :
    ∀ k ∈ f0_keys, k ∉ formant_keys ∧ k ∉ spectral_keys ∧ k ∉ temporal_keys := by
  decide

theorem formant_keys_disjoint :
    ∀ k ∈ formant_keys, k ∉ spectral_keys ∧ k ∉ temporal_keys := by
  decide

theorem spectral_keys_disjoint : ∀ k ∈ spectral_keys, k ∉ temporal_keys := by
  decide

/-- Lookup in the merged feature mapping resolves through the update chain
(temporal, then spectral, then formant, then pitch). -/
theorem extract_all_lookup (env : FeatureEnv) (len : ℕ) (hlen : len ≠ 0) (k : String) :
    (extract_all_features env len).lookup k =
      (match (extract_temporal_features env).lookup k with
       | some v => some v
       | none =>
         match (extract_spectral_features env).lookup k with
         | some v => some v
         | none =>
           match (extract_formant_features env len).lookup k with
           | some v => some v
           | none => (extract_f0_features env).lookup k) := by
  unfold extract_all_features
  rw [if_neg hlen, dictUpdate_lookup, dictUpdate_lookup, dictUpdate_lookup]

/-- The concrete C3 environment: only the spectral sub-extractor throws. -/
def c3Env : FeatureEnv :=
  { f0Throws := false, formantThrows := false, spectralThrows := true,
    temporalThrows := false, validF0Count := 5, val := fun _ => 1 }

/-- C3 counterexample: on a non-empty buffer with a failing spectral
sub-extractor, the spectral keys (for example `spectral_centroid_mean` and
`mfcc_mean`) are ABSENT from the returned mapping — not replaced by zeroed
defaults — while the mapping itself is non-empty. -/
theorem C3_spectral_failure_drops_keys_counterexample :
    (extract_all_features c3Env 1000).lookup "spectral_centroid_mean" = none ∧
    (extract_all_features c3Env 1000).lookup "mfcc_mean" = none ∧
    ((extract_all_features c3Env 1000).lookup "f0_mean").isSome = true := by
  refine ⟨rfl, rfl, rfl⟩

/-- C3 amended: the extractor is a total function (it never raises); a
zero-length buffer returns the empty mapping and a non-empty buffer a
non-empty one; a failing pitch or formant sub-extractor contributes zeroed
defaults, so those keys stay present; a failing spectral or temporal
sub-extractor contributes an EMPTY dict, so its keys are absent from the
result (and present with the computed values when it succeeds). -/
theorem C3_amended_sub_extractor_failure_policy (env : FeatureEnv) (len : ℕ) :
    extract_all_features env 0 = [] ∧
    (len ≠ 0 →
      (∀ k ∈ f0_keys, ((extract_all_features env len).lookup k).isSome = true) ∧
      (∀ k ∈ formant_keys, ((extract_all_features env len).lookup k).isSome = true) ∧
      (env.f0Throws = true →
        ∀ k ∈ f0_keys, (extract_all_features env len).lookup k = some 0) ∧
      (env.formantThrows = true →
        ∀ k ∈ formant_keys, (extract_all_features env len).lookup k = some 0) ∧
      (env.spectralThrows = false →
        ∀ k ∈ spectral_keys, ((extract_all_features env len).lookup k).isSome = true) ∧
      (env.spectralThrows = true →
        ∀ k ∈ spectral_keys, (extract_all_features env len).lookup k = none) ∧
      (env.temporalThrows = false →
        ∀ k ∈ temporal_keys, ((extract_all_features env len).lookup k).isSome = true) ∧
      (env.temporalThrows = true →
        ∀ k ∈ temporal_keys, (extract_all_features env len).lookup k = none) ∧
      extract_all_features env len ≠ []) := by
  refine ⟨rfl, fun hlen => ?_⟩
  have hf0 : ∀ k ∈ f0_keys, (extract_all_features env len).lookup k =
      (extract_f0_features env).lookup k := by
    intro k hk
    obtain ⟨hnf, hns, hnt⟩ := f0_keys_disjoint k hk
    rw [extract_all_lookup env len hlen k, temporal_lookup_none env k hnt,
      spectral_lookup_none env k hns, formant_lookup_none env len k hnf]
  have hform : ∀ k ∈ formant_keys, (extract_all_features env len).lookup k =
      (extract_formant_features env len).lookup k := by
    intro k hk
    obtain ⟨hns, hnt⟩ := formant_keys_disjoint k hk
    have hn0 : k ∉ f0_keys := fun hmem => (f0_keys_disjoint k hmem).1 hk
    rw [extract_all_lookup env len hlen k, temporal_lookup_none env k hnt,
      spectral_lookup_none env k hns]
    cases hc : (extract_formant_features env len).lookup k with
    | some v => rfl
    | none => rw [f0_lookup_none env k hn0]
  have hspec : ∀ k ∈ spectral_keys, (extract_all_features env len).lookup k =
      (match (extract_spectral_features env).lookup k with
       | some v => some v
       | none =>
         match (extract_formant_features env len).lookup k with
         | some v => some v
         | none => (extract_f0_features env).lookup k) := by
    intro k hk
    rw [extract_all_lookup env len hlen k,
      temporal_lookup_none env k (spectral_keys_disjoint k hk)]
  refine ⟨?_, ?_, ?_, ?_, ?_, ?_, ?_, ?_, ?_⟩
  · intro k hk
    rw [hf0 k hk]
    exact f0_lookup_isSome env k hk
  · intro k hk
    rw [hform k hk]
    exact formant_lookup_isSome env len k hk
  · intro hthrow k hk
    rw [hf0 k hk]
    exact f0_lookup_zero env k hthrow hk
  · intro hthrow k hk
    rw [hform k hk]
    exact formant_lookup_zero env len k hthrow hk
  · intro hok k hk
    rw [hspec k hk, spectral_lookup_eq]
    simp [hok, hk]
  · intro hthrow k hk
    have hnf : k ∉ formant_keys := by
      intro hmem
      exact (formant_keys_disjoint k hmem).1 hk
    have hn0 : k ∉ f0_keys := by
      intro hmem
      exact (f0_keys_disjoint k hmem).2.1 hk
    rw [hspec k hk, spectral_lookup_eq]
    simp only [hthrow, if_true]
    rw [formant_lookup_none env len k hnf, f0_lookup_none env k hn0]
  · intro hok k hk
    rw [extract_all_lookup env len hlen k, temporal_lookup_eq]
    simp [hok, hk]
  · intro hthrow k hk
    have hns : k ∉ spectral_keys := by
      intro hmem
      exact spectral_keys_disjoint k hmem hk
    have hnf : k ∉ formant_keys := by
      intro hmem
      exact (formant_keys_disjoint k hmem).2 hk
    have hn0 : k ∉ f0_keys := by
      intro hmem
      exact (f0_keys_disjoint k hmem).2.2 hk
    rw [extract_all_lookup env len hlen k, temporal_lookup_eq]
    simp only [hthrow, if_true]
    rw [spectral_lookup_none env k hns, formant_lookup_none env len k hnf,
      f0_lookup_none env k hn0]
  · have hs : ((extract_all_features env len).lookup "f0_mean").isSome = true := by
      rw [hf0 "f0_mean" (by simp [f0_keys])]
      exact f0_lookup_isSome env "f0_mean" (by simp [f0_keys])
    intro hempty
    rw [hempty] at hs
    simp at hs

/- ## TextToPhonemeConverter: `text_to_phonemes` (lines 67-115) and
`map_words_to_phonemes` (lines 611-690) -/

/-- Word lexicon local to `text_to_phonemes` (25 entries). -/
def converter_phoneme_rules : List (String × List String) :=
  [("the", ["ð", "ə"]), ("and", ["æ", "n", "d"]), ("have", ["h", "æ", "v"]),
   ("that", ["ð", "æ", "t"]), ("for", ["f", "ɔː"]), ("are", ["ɑː"]),
   ("with", ["w", "ɪ", "θ"]), ("his", ["h", "ɪ", "z"]), ("they", ["ð", "eɪ"]),
   ("this", ["ð", "ɪ", "s"]), ("from", ["f", "r", "ɒ", "m"]), ("she", ["ʃ", "iː"]),
   ("her", ["h", "ɜː"]), ("been", ["b", "iː", "n"]), ("than", ["ð", "æ", "n"]),
   ("its", ["ɪ", "t", "s"]), ("now", ["n", "aʊ"]), ("more", ["m", "ɔː"]),
   ("very", ["v", "e", "r", "ɪ"]), ("what", ["w", "ɒ", "t"]), ("know", ["n", "əʊ"]),
   ("just", ["dʒ", "ʌ", "s", "t"]), ("first", ["f", "ɜː", "s", "t"]),
   ("time", ["t", "aɪ", "m"]), ("people", ["p", "iː", "p", "ə", "l"])]

/-- Extended word lexicon local to `map_words_to_phonemes` (57 entries:
the converter's 25 plus 32 more). -/
def mapper_phoneme_rules : List (String × List String) :=
  converter_phoneme_rules ++
  [("good", ["g", "ʊ", "d"]), ("work", ["w", "ɜː", "k"]),
   ("school", ["s", "k", "uː", "l"]), ("world", ["w", "ɜː", "l", "d"]),
   ("great", ["g", "r", "eɪ", "t"]), ("think", ["θ", "ɪ", "ŋ", "k"]),
   ("way", ["w", "eɪ"]), ("make", ["m", "eɪ", "k"]),
   ("today", ["t", "ə", "d", "eɪ"]), ("help", ["h", "e", "l", "p"]),
   ("home", ["h", "əʊ", "m"]), ("nice", ["n", "aɪ", "s"]),
   ("happy", ["h", "æ", "p", "ɪ"]), ("love", ["l", "ʌ", "v"]),
   ("like", ["l", "aɪ", "k"]), ("want", ["w", "ɒ", "n", "t"]),
   ("need", ["n", "iː", "d"]), ("thank", ["θ", "æ", "ŋ", "k"]),
   ("you", ["j", "uː"]), ("hello", ["h", "ə", "l", "əʊ"]),
   ("water", ["w", "ɔː", "t", "ər"]), ("food", ["f", "uː", "d"]),
   ("money", ["m", "ʌ", "n", "ɪ"]), ("house", ["h", "aʊ", "s"]),
   ("friend", ["f", "r", "e", "n", "d"]),
   ("family", ["f", "æ", "m", "ɪ", "l", "ɪ"]), ("book", ["b", "ʊ", "k"]),
   ("music", ["m", "j", "uː", "z", "ɪ", "k"]),
   ("beautiful", ["b", "j", "uː", "t", "ɪ", "f", "ʊ", "l"]),
   ("important", ["ɪ", "m", "p", "ɔː", "t", "ə", "n", "t"]),
   ("different", ["d", "ɪ", "f", "ər", "ə", "n", "t"]),
   ("because", ["b", "ɪ", "k", "ɒ", "z"])]

/-- Per-character fallback: each character maps through `phoneme_map` or
passes through unchanged. -/
def charPhonemes (word_clean : String) : List String :=
  word_clean.toList.map (fun c =>
    (phoneme_map.lookup (String.mk [c])).getD (String.mk [c]))

/-- Models `text_to_phonemes`: lowercase and strip the text, split into
words, then for each cleaned word use the converter lexicon or the
per-character fallback, concatenating in order. -/
def text_to_phonemes (text : String) : List String :=
  let words := splitWs (trimStr (lowerStr text))
  (words.map (fun word =>
    let word_clean := cleanWord word
    match converter_phoneme_rules.lookup word_clean with
    | some ps => ps
    | none => charPhonemes word_clean)).flatten

/-- Models `map_words_to_phonemes`: build the word-to-phoneme dict using
the extended lexicon or the per-character fallback (Python dict assignment
overwrites, but the value depends only on the cleaned word, so keeping the
first binding is equivalent). -/
def map_words_to_phonemes (words : List String) : List (String × List String) :=
  words.foldl (fun m word =>
    let word_clean := cleanWord (lowerStr word)
    let v :=
      match mapper_phoneme_rules.lookup word_clean with
      | some ps => ps
      | none => charPhonemes word_clean
    if (m.lookup word_clean).isSome then m else m ++ [(word_clean, v)]) []

/-- Concatenation of the word-to-phoneme mapping over a text's words in
order, the composite the C10 claim compares against the flat sequence (the
word list is produced as `analyze_pronunciation_detailed` does, by
`reference_text.lower().split()`). -/
def concatWordPhonemes (text : String) : List String :=
  let words := splitWs (lowerStr text)
  let mapping := map_words_to_phonemes words
  (words.map (fun w => (mapping.lookup (cleanWord (lowerStr w))).getD [])).flatten

/-- C10: the mapper's lexicon strictly contains the converter's with
identical entries; hence on `good` (mapper-only) the concatenated word
mapping `[g, ʊ, d]` differs from the flat sequence `[g, ɒ, ɒ, d]` produced
by the per-character fallback, while every word of the shared (converter)
lexicon yields identical results through both paths. -/
theorem C10_lexicon_containment_and_divergence :
    (∀ p ∈ converter_phoneme_rules, p ∈ mapper_phoneme_rules) ∧
    (("good", ["g", "ʊ", "d"]) ∈ mapper_phoneme_rules ∧
      converter_phoneme_rules.lookup "good" = none) ∧
    (text_to_phonemes "good" = ["g", "ɒ", "ɒ", "d"] ∧
      concatWordPhonemes "good" = ["g", "ʊ", "d"] ∧
      text_to_phonemes "good" ≠ concatWordPhonemes "good") ∧
    (∀ p ∈ converter_phoneme_rules,
      text_to_phonemes p.1 = concatWordPhonemes p.1) := by
  refine ⟨by decide, ⟨by decide, rfl⟩, ⟨rfl, rfl, by decide⟩, by decide⟩

/- ## Top-level scoring entry point `score_pronunciation`
(发音评分模块.py, lines 44-246) -/

/-- Levenshtein edit distance (unit insert/delete/substitute costs), the
semantics of the external `Levenshtein.distance` used by the simple scorer. -/
def levenshtein : List Char → List Char → ℕ
  | [], t => t.length
  | a :: s, [] => (a :: s).length
  | a :: s, b :: t =>
    if a = b then levenshtein s t
    else 1 + min (levenshtein (a :: s) t) (min (levenshtein s (b :: t)) (levenshtein s t))
termination_by s t => s.length + t.length
decreasing_by all_goals simp_wf <;> omega

/-- Simple-mode similarity score (lines 155-166): edit distance of the
lowercased strings over the larger original length, scaled to [0, 100]
and clamped. -/
def levenshtein_score (transcription reference_text : String) : ℚ :=
  let distance_score : ℕ :=
    levenshtein (lowerStr transcription).toList (lowerStr reference_text).toList
  let max_distance : ℕ := max transcription.length reference_text.length
  let score : ℚ :=
    if max_distance = 0 then 100
    else 100 * (1 - (distance_score : ℚ) / (max_distance : ℚ))
  max 0 (min score 100)

/-- Fallback similarity (lines 131-148) used when no Levenshtein library is
importable: 0.4 × character-level overlap plus 0.6 × word-set overlap. -/
def improved_similarity (str1 str2 : String) : ℚ :=
  let s1 := trimStr (lowerStr str1)
  let s2 := trimStr (lowerStr str2)
  if s1.length = 0 ∨ s2.length = 0 then 0
  else
    let char_similarity : ℚ :=
      ((s1.toList.filter (fun c => s2.toList.contains c)).length : ℚ) /
        ((max s1.length s2.length : ℕ) : ℚ)
    let words1 := (splitWs s1).dedup
    let words2 := (splitWs s2).dedup
    let word_similarity : ℚ :=
      if words1.length = 0 ∨ words2.length = 0 then 0
      else ((words1.filter (fun w => words2.contains w)).length : ℚ) /
        ((max words1.length words2.length : ℕ) : ℚ)
    char_similarity * 0.4 + word_similarity * 0.6

/-- Environment of one `score_pronunciation` call: everything the function
receives from external collaborators (importable libraries, the model files
on disk, the Wav2Vec2 transcription, a possible failure raised inside an
external call, and the result of the phoneme-level analysis, itself driven
by model inference). -/
structure ScoringEnv where
  depsAvailable : Bool
  modelPathExists : Bool
  modelPath : String
  missingModelFile : Option String
  externalFailure : Option String
  transcription : String
  levenshteinAvailable : Bool
  phonemeScoringAvailable : Bool
  analysisOk : Bool
  analysisResult : DetailedPronunciationResult
deriving DecidableEq, Repr

/-- What one scoring call returns on success: a bare float (simple mode),
a `DetailedPronunciationResult`, or the plain-dict fallback used when the
phoneme module is unavailable. -/
inductive ScoreOutcome where
  | simple (score : ℚ)
  | detailedResult (r : DetailedPronunciationResult)
  | simpleDict (score : ℚ)
deriving DecidableEq, Repr

/-- Models `create_simple_detailed_result` (only the score feeds the
constructed record; the transcription/reference strings of the
unavailable-module dict are diagnostic payload). -/
def create_simple_detailed_result (score : ℚ) (phonemeScoringAvailable : Bool) :
    ScoreOutcome :=
  if phonemeScoringAvailable = false then .simpleDict score
  else
    .detailedResult
      { overall_score := score, phoneme_scores := [], word_scores := [],
        pronunciation_issues := ["未进行音素级分析"],
        improvement_suggestions := ["建议多练习发音清晰度"],
        duration_analysis := [("total_duration", 0)], pitch_analysis := [] }

/-- Error-message classification of the outer `except` handler
(lines 203-210). -/
def classify_error (e : String) : String :=
  if strContains e "CUDA" then "GPU内存不足，建议使用CPU模式或减少音频长度"
  else if strContains (lowerStr e) "model" then "模型加载失败，请检查模型文件是否完整"
  else if strContains (lowerStr e) "audio" then "音频处理失败，请检查音频格式和长度"
  else "未知错误: " ++ e

/-- The `try` body of `score_pronunciation`: dependency check, empty-audio
check, model-path and model-file checks, external inference, then the
Levenshtein (or fallback) similarity score and the detailed-mode branching;
`Except.error` stands for a raised exception. -/
def score_pronunciation_body (env : ScoringEnv) (audio_data : List ℚ)
    (reference_text : String) (detailed : Bool) : Except String ScoreOutcome :=
  if env.depsAvailable = false then
    .error "必要的依赖库未安装，请运行: pip install -r requirements.txt"
  else if audio_data.length = 0 then .error "音频数据为空"
  else if env.modelPathExists = false then
    .error ("模型路径不存在: " ++ env.modelPath)
  else
    match env.missingModelFile with
    | some f => .error ("模型文件缺失: " ++ f)
    | none =>
      match env.externalFailure with
      | some e => .error e
      | none =>
        let transcription := env.transcription
        if env.levenshteinAvailable = false then
          .ok (.simple (max 0
            (min (100 * improved_similarity transcription reference_text) 100)))
        else
          let final_score := levenshtein_score transcription reference_text
          if detailed && env.phonemeScoringAvailable then
            if env.analysisOk then
              .ok (.detailedResult { env.analysisResult with
                overall_score := max env.analysisResult.overall_score
                  (final_score * 0.8) })
            else .ok (create_simple_detailed_result final_score true)
          else if detailed then
            .ok (create_simple_detailed_result final_score env.phonemeScoringAvailable)
          else .ok (.simple final_score)

/-- Models `score_pronunciation`: the body wrapped by the outer handler,
which re-raises every failure as `RuntimeError("发音评分失败: " + classified)`. -/
def score_pronunciation (env : ScoringEnv) (audio_data : List ℚ)
    (reference_text : String) (detailed : Bool) : Except String ScoreOutcome :=
  match score_pronunciation_body env audio_data reference_text detailed with
  | .ok r => .ok r
  | .error e => .error ("发音评分失败: " ++ classify_error e)

/-- An inert detailed result used by the concrete environments. -/
def emptyDetailedResult : DetailedPronunciationResult :=
  { overall_score := 50, phoneme_scores := [], word_scores := [],
    pronunciation_issues := [], improvement_suggestions := [],
    duration_analysis := [], pitch_analysis := [] }

/-- A fully healthy environment used by the C1 counterexample and C9
witness. -/
def healthyEnv : ScoringEnv :=
  { depsAvailable := true, modelPathExists := true, modelPath := "m",
    missingModelFile := none, externalFailure := none, transcription := "the",
    levenshteinAvailable := true, phonemeScoringAvailable := true,
    analysisOk := true, analysisResult := emptyDetailedResult }

/-- C1 counterexample: with importable dependencies, a zero-length audio
buffer makes `score_pronunciation` raise a RuntimeError (the empty-audio
ValueError is caught and re-raised, classified as an unknown error) instead
of returning a default result. -/
theorem C1_empty_audio_raises_counterexample :
    score_pronunciation healthyEnv [] "the" true =
      .error "发音评分失败: 未知错误: 音频数据为空" := by
  rfl

/-- C1 amended: for every environment and reference text, a scoring call on
an empty audio buffer propagates an exception to the caller (no default
result object is produced); when the dependencies import cleanly the raised
message is exactly the re-wrapped empty-audio error. The inner analyzer
`analyze_pronunciation_detailed`, by contrast, catches its own failures,
but the top-level entry point re-raises. -/
theorem C1_amended_empty_audio_propagates_error (env : ScoringEnv)
    (reference_text : String) (detailed : Bool) :
    (∃ e, score_pronunciation env [] reference_text detailed = .error e) ∧
    (env.depsAvailable = true →
      score_pronunciation env [] reference_text detailed =
        .error "发音评分失败: 未知错误: 音频数据为空") := by
  constructor
  · cases hd : env.depsAvailable
    · refine ⟨"发音评分失败: 未知错误: 必要的依赖库未安装，请运行: pip install -r requirements.txt", ?_⟩
      unfold score_pronunciation score_pronunciation_body
      rw [hd]
      rfl
    · refine ⟨"发音评分失败: 未知错误: 音频数据为空", ?_⟩
      unfold score_pronunciation score_pronunciation_body
      rw [hd]
      rfl
  · intro hd
    unfold score_pronunciation score_pronunciation_body
    rw [hd]
    rfl

/-- C9: in detailed mode, when the dependencies, model files and external
inference are healthy and the phoneme-level analysis succeeds, the returned
result is the analysis result with its overall score replaced by
`max(analysis_overall, 0.8 * similarity_score)`, so the reported overall
score is at least 80% of the simple-mode similarity score. -/
theorem C9_detailed_overall_score_floor (env : ScoringEnv) (audio_data : List ℚ)
    (reference_text : String) (h1 : env.depsAvailable = true)
    (h2 : audio_data ≠ []) (h3 : env.modelPathExists = true)
    (h4 : env.missingModelFile = none) (h5 : env.externalFailure = none)
    (h6 : env.levenshteinAvailable = true) (h7 : env.phonemeScoringAvailable = true)
    (h8 : env.analysisOk = true) :
    score_pronunciation env audio_data reference_text true =
      .ok (.detailedResult { env.analysisResult with
        overall_score := max env.analysisResult.overall_score
          (levenshtein_score env.transcription reference_text * 0.8) }) ∧
    max env.analysisResult.overall_score
        (levenshtein_score env.transcription reference_text * 0.8) ≥
      0.8 * levenshtein_score env.transcription reference_text := by
  constructor
  · unfold score_pronunciation score_pronunciation_body
    rw [h1, h3, h4, h5, h6, h7, h8]
    simp [List.length_eq_zero, h2]
  · rw [mul_comm (0.8 : ℚ)]
    exact le_max_right _ _

/-- C9 witness at the healthy environment, a one-sample buffer and
reference text `the`. -/
theorem C9_witness :
    score_pronunciation healthyEnv [0] "the" true =
      .ok (.detailedResult { healthyEnv.analysisResult with
        overall_score := max healthyEnv.analysisResult.overall_score
          (levenshtein_score healthyEnv.transcription "the" * 0.8) }) ∧
    max healthyEnv.analysisResult.overall_score
        (levenshtein_score healthyEnv.transcription "the" * 0.8) ≥
      0.8 * levenshtein_score healthyEnv.transcription "the" :=
  C9_detailed_overall_score_floor healthyEnv [0] "the" rfl (by simp) rfl rfl rfl
    rfl rfl rfl

end PronunciationScoring
